import Mathlib

/-!
# depth_image_proc: registering a depth image into a second camera

A shallow embedding of `RegisterNode::imageCb` and `RegisterNode::convert`
(`depth_image_proc/src/register.cpp`) and the properties of the z-buffered
reprojection that the specification states about them.

Conventions of the embedding.

* A C++ `double` is a `Dbl`: an exact rational, or the single value `nonfinite`
  that stands for an infinity or a NaN.  Arithmetic on finite values is exact
  (the rounding of the operations on `double` is not represented), a division by
  zero is non-finite, and an operation with a non-finite operand is non-finite.
  The properties take the coordinates and depths as this arithmetic computes
  them; where a property compares computed coordinates it is stated for inputs
  on which rounding keeps the comparison (see C6).
* A C++ `float` is a `Flt`: an exact rational, `+inf`, `-inf` or a NaN (the two
  zeros of a `float` are one value).  The conversion of a `double` to `float`
  (the initialisations of `new_depth`, lines 272 and 310) rounds to the nearest
  `float`, ties to even, and gives an infinity from `2^128 - 2^103` on.
* A conversion of a `double` to `int` truncates toward zero.  For a value that
  is non-finite or outside the range of `int` the conversion gives `INT_MIN`
  (what the x86-64 conversion instruction returns).
* 32-bit unsigned quantities (`width`, `height`, `step`, buffer indices) are
  natural numbers, reduced modulo `2^32` where the C++ arithmetic is 32-bit.
* A `uint16_t` sample is a natural number below `65536`.
* The byte vector of an image is seen through the element type the code reads
  it at: a list of samples.  A write at an index outside the registered buffer is
  undefined behaviour in C++: `zwrite` leaves the buffer as it is, and
  `strayWrites` lists the writes of `convert` that fall outside the buffer.
* `DepthTraits` (`depth_traits.hpp`) is not among the sources: the pixel loop is
  written over any `DepthTraits T`, and the two encodings are modelled from the
  specification.  The camera model, the transform lookup and the message types
  belong to other packages and come in as data.

The file has the model first (numbers, depth traits, messages, `convert`,
`imageCb`), then the vocabulary of the properties and the inputs of the examples,
then the properties: the z-buffer of one cell, the registered buffer cell by cell,
and the statements C1 to C13 with their examples and counterexamples.
-/

set_option autoImplicit false

namespace depth_image_proc

/-! ## Numbers -/

/-- A C++ `double`: an exact rational, or a non-finite value. -/
inductive Dbl where
  | fin (q : ℚ)
  | nonfinite
  deriving DecidableEq

namespace Dbl

/-- Floating-point addition. -/
def add : Dbl → Dbl → Dbl
  | fin a, fin b => fin (a + b)
  | _, _ => nonfinite

/-- Floating-point subtraction. -/
def sub : Dbl → Dbl → Dbl
  | fin a, fin b => fin (a - b)
  | _, _ => nonfinite

/-- Floating-point multiplication. -/
def mul : Dbl → Dbl → Dbl
  | fin a, fin b => fin (a * b)
  | _, _ => nonfinite

/-- Floating-point division: a division by zero is not finite. -/
def div : Dbl → Dbl → Dbl
  | fin a, fin b => if b = 0 then nonfinite else fin (a / b)
  | _, _ => nonfinite

/-- The C++ comparison `a > b`: false as soon as one side is a NaN. -/
def gt : Dbl → Dbl → Bool
  | fin a, fin b => decide (b < a)
  | _, _ => false

/-- The C++ `std::isfinite`. -/
def isfinite : Dbl → Bool
  | fin _ => true
  | nonfinite => false

instance : Add Dbl := ⟨add⟩
instance : Sub Dbl := ⟨sub⟩
instance : Mul Dbl := ⟨mul⟩
instance : Div Dbl := ⟨div⟩
instance : Coe ℚ Dbl := ⟨fin⟩

/-- The literal `1.0`. -/
def one : Dbl := fin 1

/-- The literal `0.5`. -/
def half : Dbl := fin (1 / 2)

end Dbl

/-- A C++ `float`: a finite value (an exact rational), an infinity, or a NaN. -/
inductive Flt where
  | fin (q : ℚ)
  | pinf
  | ninf
  | nan
  deriving DecidableEq

/-- Rounding of a rational to the nearest integer, a tie to the even one. -/
def roundEven (x : ℚ) : Int :=
  if x - ⌊x⌋ < 1 / 2 then ⌊x⌋
  else if 1 / 2 < x - ⌊x⌋ then ⌊x⌋ + 1
  else if ⌊x⌋ % 2 = 0 then ⌊x⌋ else ⌊x⌋ + 1

/-- The spacing of the `float` values around a magnitude `x`: `2^(e - 23)` for
`2^e ≤ x < 2^(e + 1)`, and `2^(-149)` below `2^(-126)`, the subnormal range. -/
def floatSpacing (x : ℚ) : ℚ := 2 ^ (max (Int.log 2 x) (-126) - 23)

/-- The `float` nearest to a magnitude `x ≥ 0`, a tie to the even significand, with no
bound on the exponent. -/
def roundMagnitude (x : ℚ) : ℚ := roundEven (x / floatSpacing x) * floatSpacing x

/-- The `float` nearest to a rational, with no bound on the exponent. -/
def roundFloat (q : ℚ) : ℚ := if 0 ≤ q then roundMagnitude q else -roundMagnitude (-q)

/-- The magnitude from which rounding to `float` overflows: `2^128 - 2^103`, half way
between the largest `float` and `2^128`. -/
def FLT_OVERFLOW : ℚ := 2 ^ 128 - 2 ^ 103

/-- The conversion of a `double` to `float`: the nearest `float`, an infinity when the
rounding overflows.  A non-finite `double` reaches the conversion nowhere in `convert`
(its pixel fails the bounds check); it is given as a NaN. -/
def Dbl.toFloat : Dbl → Flt
  | Dbl.fin q =>
    if FLT_OVERFLOW ≤ q then Flt.pinf
    else if q ≤ -FLT_OVERFLOW then Flt.ninf
    else Flt.fin (roundFloat q)
  | Dbl.nonfinite => Flt.nan

namespace Flt

/-- The conversion of a `float` to `double`, which is exact. -/
def toDouble : Flt → Dbl
  | fin q => Dbl.fin q
  | _ => Dbl.nonfinite

/-- The C++ comparison `a > b` on `float`: false as soon as one side is a NaN. -/
def gt : Flt → Flt → Bool
  | fin a, fin b => decide (b < a)
  | fin _, ninf => true
  | pinf, fin _ => true
  | pinf, ninf => true
  | _, _ => false

/-- The C++ `std::isfinite` on `float`. -/
def isfinite : Flt → Bool
  | fin _ => true
  | _ => false

end Flt

/-- The smallest `int`. -/
def INT_MIN : Int := -2147483648

/-- The largest `int`. -/
def INT_MAX : Int := 2147483647

/-- The modulus of 32-bit unsigned arithmetic. -/
def UINT32 : Nat := 4294967296

/-- Truncation of a rational toward zero. -/
def truncate (q : ℚ) : Int := if 0 ≤ q then ⌊q⌋ else ⌈q⌉

/-- The conversion `int i = x;` of a floating-point value: truncation toward
zero, `INT_MIN` when the value is non-finite or does not fit an `int`. -/
def toInt : Dbl → Int
  | Dbl.fin q => if INT_MIN ≤ truncate q ∧ truncate q ≤ INT_MAX then truncate q else INT_MIN
  | Dbl.nonfinite => INT_MIN

/-- The conversion `static_cast<int>(n)` of a 32-bit unsigned value. -/
def castInt (n : Nat) : Int :=
  if (n % UINT32 : Nat) ≤ 2147483647 then ((n % UINT32 : Nat) : Int)
  else ((n % UINT32 : Nat) : Int) - 4294967296

/-- The integers `a, a + 1, ..., b` that a loop `for (int n = a; n <= b; ++n)` visits. -/
def intRange (a b : Int) : List Int :=
  (List.range (b + 1 - a).toNat).map fun (k : Nat) => a + (k : Int)

/-! ## Depth traits -/

/-- The operations of `DepthTraits<T>` together with what the code uses of the
sample type `T` itself: its size in bytes, the value of a zero-filled element and
its comparison `>`. -/
structure DepthTraits (T : Type) where
  /-- The size of a sample in bytes. -/
  sizeofT : Nat
  /-- The sample whose bytes are all zero, which `resize` fills a buffer with. -/
  zero : T
  /-- The comparison `a > b` on samples. -/
  gt : T → T → Bool
  /-- Whether a sample is a depth reading. -/
  valid : T → Bool
  /-- The metric depth of a sample. -/
  toMeters : T → Dbl
  /-- The sample that stores a metric depth. -/
  fromMeters : Dbl → T
  /-- What `initializeBuffer` leaves in a buffer. -/
  initializeBuffer : List T → List T

/-- Modelled from the spec: `depth_traits.hpp` is not among the sources.  The
16-bit encoding: 0 is invalid, one unit is one millimetre, a metric depth is
stored rounded to the nearest unit by adding 0.5 and truncating, and the
buffer is left zero-filled.  The conversion to `uint16_t` keeps the low 16 bits
of the `int` conversion. -/
def DepthTraits_uint16 : DepthTraits Nat where
  sizeofT := 2
  zero := 0
  gt a b := decide (b < a)
  valid depth := depth != 0
  toMeters depth := Dbl.fin ((depth : ℚ) / 1000)
  fromMeters depth := (toInt (depth * Dbl.fin 1000 + Dbl.half) % 65536).toNat
  initializeBuffer buffer := buffer

/-- Modelled from the spec: `depth_traits.hpp` is not among the sources.  The
floating-point encoding: a sample that is not finite is invalid, a sample is its
metric depth, and the buffer is filled with NaN.  The metric depth that `convert`
hands to `fromMeters` is a `double` and the sample is a `float`: `fromMeters` is the
conversion of the one to the other. -/
def DepthTraits_float : DepthTraits Flt where
  sizeofT := 4
  zero := Flt.fin 0
  gt := Flt.gt
  valid depth := depth.isfinite
  toMeters depth := depth.toDouble
  fromMeters depth := depth.toFloat
  initializeBuffer buffer := buffer.map fun _ => Flt.nan

/-! ## Camera models, transforms and messages -/

/-- What the code reads of an `image_geometry::PinholeCameraModel`. -/
structure PinholeCameraModel where
  fx : ℚ
  fy : ℚ
  cx : ℚ
  cy : ℚ
  Tx : ℚ
  Ty : ℚ
  /-- The `width` of `reducedResolution()`, a non-negative `int`. -/
  reducedWidth : Nat
  /-- The `height` of `reducedResolution()`, a non-negative `int`. -/
  reducedHeight : Nat
  deriving DecidableEq

/-- A homogeneous point `(x, y, z, w)`. -/
structure Vector4d where
  x : Dbl
  y : Dbl
  z : Dbl
  w : Dbl
  deriving DecidableEq

/-- An `Eigen::Affine3d`: the upper three rows of a homogeneous 4x4 matrix
(the last row is `0 0 0 1`). -/
structure Affine3d where
  m00 : ℚ
  m01 : ℚ
  m02 : ℚ
  m03 : ℚ
  m10 : ℚ
  m11 : ℚ
  m12 : ℚ
  m13 : ℚ
  m20 : ℚ
  m21 : ℚ
  m22 : ℚ
  m23 : ℚ
  deriving DecidableEq

/-- The product `depth_to_rgb * xyz_depth` of a transform and a homogeneous point. -/
def Affine3d.apply (t : Affine3d) (p : Vector4d) : Vector4d :=
  { x := Dbl.fin t.m00 * p.x + Dbl.fin t.m01 * p.y + Dbl.fin t.m02 * p.z + Dbl.fin t.m03 * p.w
    y := Dbl.fin t.m10 * p.x + Dbl.fin t.m11 * p.y + Dbl.fin t.m12 * p.z + Dbl.fin t.m13 * p.w
    z := Dbl.fin t.m20 * p.x + Dbl.fin t.m21 * p.y + Dbl.fin t.m22 * p.z + Dbl.fin t.m23 * p.w
    w := p.w }

/-- The identity transform. -/
def Affine3d.identity : Affine3d :=
  { m00 := 1, m01 := 0, m02 := 0, m03 := 0
    m10 := 0, m11 := 1, m12 := 0, m13 := 0
    m20 := 0, m21 := 0, m22 := 1, m23 := 0 }

/-- A `builtin_interfaces` time stamp. -/
structure Time where
  sec : Int
  nanosec : Nat
  deriving DecidableEq

/-- A `std_msgs` header. -/
structure Header where
  stamp : Time
  frame_id : String
  deriving DecidableEq

/-- A `sensor_msgs` image whose byte vector `data` is seen as a value of `D`. -/
structure Image (D : Type) where
  header : Header
  height : Nat
  width : Nat
  encoding : String
  step : Nat
  data : D
  deriving DecidableEq

/-- The members of `RegisterNode` that `convert` reads. -/
structure RegisterNode where
  depth_model_ : PinholeCameraModel
  rgb_model_ : PinholeCameraModel
  fill_upsampling_holes_ : Bool

/-! ## `RegisterNode::convert` -/

/-- The z-buffer update of one cell (lines 274-276 and 312-314): the new depth
is stored when the cell is invalid or holds a larger depth. -/
def updateCell {T : Type} (tr : DepthTraits T) (reg_depth new_depth : T) : T :=
  if !tr.valid reg_depth || tr.gt reg_depth new_depth then new_depth else reg_depth

/-- The z-buffer update of the cell at index `idx` of the registered buffer
(lines 271-276 and 309-314).  The code makes no check of `idx` against the size of
the vector: at an index outside the buffer the C++ write is undefined behaviour, and
the model leaves the buffer as it is (`strayWrites` lists these writes). -/
def zwrite {T : Type} (tr : DepthTraits T) (registered_data : List T) (idx : Nat)
    (new_depth : T) : List T :=
  match registered_data[idx]? with
  | none => registered_data
  | some reg_depth => registered_data.set idx (updateCell tr reg_depth new_depth)

/-- The buffer index `v_rgb * registered_msg->width + u_rgb`, computed in 32-bit
unsigned arithmetic. -/
def cellIndex (width : Nat) (v_rgb u_rgb : Int) : Nat :=
  ((v_rgb * (width : Int) + u_rgb) % (UINT32 : Int)).toNat

/-- The point `(x, y, depth, 1)` in the depth camera frame of the image point
`(u, v)` at metric depth `depth` (lines 252-255, 280-287). -/
def unproject (depth_model_ : PinholeCameraModel) (u v : ℚ) (depth : Dbl) : Vector4d :=
  let inv_depth_fx := Dbl.one / Dbl.fin depth_model_.fx
  let inv_depth_fy := Dbl.one / Dbl.fin depth_model_.fy
  { x := ((Dbl.fin u - Dbl.fin depth_model_.cx) * depth - Dbl.fin depth_model_.Tx) * inv_depth_fx
    y := ((Dbl.fin v - Dbl.fin depth_model_.cy) * depth - Dbl.fin depth_model_.Ty) * inv_depth_fy
    z := depth
    w := Dbl.one }

/-- The pixel `(u_rgb, v_rgb)` of a point of the RGB camera frame, projected
with the inverse depth `inv_Z` (lines 262-263, 295-299). -/
def projectWith (rgb_model_ : PinholeCameraModel) (xyz_rgb : Vector4d) (inv_Z : Dbl) : Int × Int :=
  (toInt ((Dbl.fin rgb_model_.fx * xyz_rgb.x + Dbl.fin rgb_model_.Tx) * inv_Z
      + Dbl.fin rgb_model_.cx + Dbl.half),
   toInt ((Dbl.fin rgb_model_.fy * xyz_rgb.y + Dbl.fin rgb_model_.Ty) * inv_Z
      + Dbl.fin rgb_model_.cy + Dbl.half))

/-- Point-sample policy, lines 250-263: the target pixel `(u_rgb, v_rgb)` of the
source pixel `(u, v)` at metric depth `depth`, and its point in the RGB frame. -/
def pointTarget (node : RegisterNode) (depth_to_rgb : Affine3d) (v u : Nat) (depth : Dbl) :
    (Int × Int) × Vector4d :=
  let xyz_depth := unproject node.depth_model_ (u : ℚ) (v : ℚ) depth
  let xyz_rgb := depth_to_rgb.apply xyz_depth
  let inv_Z := Dbl.one / xyz_rgb.z
  (projectWith node.rgb_model_ xyz_rgb inv_Z, xyz_rgb)

/-- Hole-filling policy, lines 279-299: the target pixels `(u_rgb_1, v_rgb_1)` and
`(u_rgb_2, v_rgb_2)` of the two corners of the source pixel `(u, v)`, and their
points in the RGB frame. -/
def cornerTargets (node : RegisterNode) (depth_to_rgb : Affine3d) (v u : Nat) (depth : Dbl) :
    ((Int × Int) × (Int × Int)) × (Vector4d × Vector4d) :=
  let xyz_depth_1 := unproject node.depth_model_ ((u : ℚ) - 1 / 2) ((v : ℚ) - 1 / 2) depth
  let xyz_depth_2 := unproject node.depth_model_ ((u : ℚ) + 1 / 2) ((v : ℚ) + 1 / 2) depth
  let xyz_rgb_1 := depth_to_rgb.apply xyz_depth_1
  let xyz_rgb_2 := depth_to_rgb.apply xyz_depth_2
  let inv_Z := Dbl.one / xyz_rgb_1.z
  let rgb_1 := projectWith node.rgb_model_ xyz_rgb_1 inv_Z
  let inv_Z := Dbl.one / xyz_rgb_2.z
  let rgb_2 := projectWith node.rgb_model_ xyz_rgb_2 inv_Z
  ((rgb_1, rgb_2), (xyz_rgb_1, xyz_rgb_2))

/-- The sample `depth_row[u]` of row `v` of the depth image, `none` past the end
of its buffer. -/
def rawDepth {T : Type} (tr : DepthTraits T) (depth_msg : Image (List T)) (v u : Nat) : Option T :=
  depth_msg.data[v * (depth_msg.step / tr.sizeofT) + u]?

/-- The row step of the registered image (line 217). -/
def registeredStep {T : Type} (tr : DepthTraits T) (width : Nat) : Nat :=
  (width * tr.sizeofT) % UINT32

/-- The registered buffer after `resize` and `initializeBuffer` (lines 218-221):
`height * step` bytes, the product taken in 32-bit arithmetic. -/
def initialData {T : Type} (tr : DepthTraits T) (width height : Nat) : List T :=
  tr.initializeBuffer
    (List.replicate (((height * registeredStep tr width) % UINT32) / tr.sizeofT) tr.zero)

/-- The body of the pixel loop for the source pixel `(u, v)` (lines 241-317), statement
by statement: the buffer is returned unchanged where the code says `continue`. -/
def pixelBody {T : Type} (tr : DepthTraits T) (node : RegisterNode) (depth_msg : Image (List T))
    (width height : Nat) (depth_to_rgb : Affine3d) (registered_data : List T) (v u : Nat) :
    List T :=
  match rawDepth tr depth_msg v u with
  | none => registered_data
  | some raw_depth =>
    if !tr.valid raw_depth then registered_data
    else
      let depth := tr.toMeters raw_depth
      if node.fill_upsampling_holes_ == false then
        let t := pointTarget node depth_to_rgb v u depth
        let xyz_rgb := t.2
        let u_rgb := t.1.1
        let v_rgb := t.1.2
        if u_rgb < 0 || u_rgb ≥ castInt width || v_rgb < 0 || v_rgb ≥ castInt height then
          registered_data
        else
          let new_depth := tr.fromMeters xyz_rgb.z
          zwrite tr registered_data (cellIndex width v_rgb u_rgb) new_depth
      else
        let t := cornerTargets node depth_to_rgb v u depth
        let xyz_rgb_1 := t.2.1
        let xyz_rgb_2 := t.2.2
        let u_rgb_1 := t.1.1.1
        let v_rgb_1 := t.1.1.2
        let u_rgb_2 := t.1.2.1
        let v_rgb_2 := t.1.2.2
        if u_rgb_1 < 0 || u_rgb_2 ≥ castInt width || v_rgb_1 < 0 || v_rgb_2 ≥ castInt height
        then registered_data
        else
          (intRange v_rgb_1 v_rgb_2).foldl
            (fun reg nv =>
              (intRange u_rgb_1 u_rgb_2).foldl
                (fun reg nu =>
                  let new_depth := tr.fromMeters (Dbl.half * (xyz_rgb_1.z + xyz_rgb_2.z))
                  zwrite tr reg (cellIndex width nv nu) new_depth)
                reg)
            registered_data

/-- The template `RegisterNode::convert<T>`: `registered_msg` comes with its
header, encoding, width and height set, and is returned with its step and data
(lines 216-221 and the loops of lines 239-319). -/
def convert {T : Type} (tr : DepthTraits T) (node : RegisterNode) (depth_msg : Image (List T))
    (registered_msg : Image (List T)) (depth_to_rgb : Affine3d) : Image (List T) :=
  { registered_msg with
    step := registeredStep tr registered_msg.width
    data :=
      (List.range depth_msg.height).foldl
        (fun reg v =>
          (List.range depth_msg.width).foldl
            (fun reg u =>
              pixelBody tr node depth_msg registered_msg.width registered_msg.height
                depth_to_rgb reg v u)
            reg)
        (initialData tr registered_msg.width registered_msg.height) }

/-! ## `RegisterNode::imageCb` -/

/-- A `sensor_msgs` region of interest. -/
structure RegionOfInterest where
  x_offset : Nat
  y_offset : Nat
  height : Nat
  width : Nat
  do_rectify : Bool
  deriving DecidableEq

/-- A `sensor_msgs` camera info record. -/
structure CameraInfo where
  header : Header
  height : Nat
  width : Nat
  distortion_model : String
  d : List ℚ
  k : List ℚ
  r : List ℚ
  p : List ℚ
  binning_x : Nat
  binning_y : Nat
  roi : RegionOfInterest
  deriving DecidableEq

/-- The byte vector of a received depth image, seen through the two element
types `convert` reads it at. -/
structure Bytes where
  /-- What `reinterpret_cast<const uint16_t *>` reads. -/
  as_uint16 : List Nat
  /-- What `reinterpret_cast<const float *>` reads. -/
  as_float : List Flt

/-- The byte vector of a registered image, by the element type it was written at. -/
inductive Samples where
  | uint16 (cells : List Nat)
  | float (cells : List Flt)
  deriving DecidableEq

/-- The number of bytes of a registered buffer. -/
def Samples.size : Samples → Nat
  | Samples.uint16 cells => 2 * cells.length
  | Samples.float cells => 4 * cells.length

/-- The collaborators of `imageCb` outside this repository: the camera model
built from a camera info record, and the transform lookup (`lookupTransform`
followed by `transformToEigen`), which gives the transform from the source frame
to the target frame at a time in nanoseconds, or `none` when it throws a
`tf2::TransformException`. -/
structure Services where
  fromCameraInfo : CameraInfo → PinholeCameraModel
  lookupTransform : String → String → Int → Option Affine3d

/-- The encoding name `sensor_msgs::image_encodings::TYPE_16UC1`. -/
def TYPE_16UC1 : String := "16UC1"

/-- The encoding name `sensor_msgs::image_encodings::TYPE_32FC1`. -/
def TYPE_32FC1 : String := "32FC1"

/-- The `tf2::TimePoint` of a time stamp, in nanoseconds (lines 166-169). -/
def tf2Time (stamp : Time) : Int :=
  (stamp.nanosec : Int) + stamp.sec * 1000000000

/-- The callback `RegisterNode::imageCb` (lines 154-208).  The result lists what
is handed to `pub_registered_.publish`: nothing, or one image with its camera info. -/
def imageCb (env : Services) (fill_upsampling_holes_ : Bool) (depth_image_msg : Image Bytes)
    (depth_info_msg rgb_info_msg : CameraInfo) : List (Image Samples × CameraInfo) :=
  let node : RegisterNode :=
    { depth_model_ := env.fromCameraInfo depth_info_msg
      rgb_model_ := env.fromCameraInfo rgb_info_msg
      fill_upsampling_holes_ := fill_upsampling_holes_ }
  let tf2_time := tf2Time depth_info_msg.header.stamp
  match env.lookupTransform rgb_info_msg.header.frame_id depth_info_msg.header.frame_id
      tf2_time with
  | none => []
  | some depth_to_rgb =>
    let header : Header :=
      { stamp := depth_image_msg.header.stamp, frame_id := rgb_info_msg.header.frame_id }
    let height := node.rgb_model_.reducedHeight
    let width := node.rgb_model_.reducedWidth
    let registered_info_msg : CameraInfo :=
      { rgb_info_msg with header := { rgb_info_msg.header with stamp := header.stamp } }
    if depth_image_msg.encoding = TYPE_16UC1 then
      let r := convert DepthTraits_uint16 node
        { depth_image_msg with data := depth_image_msg.data.as_uint16 }
        { header := header, height := height, width := width
          encoding := depth_image_msg.encoding, step := 0, data := [] }
        depth_to_rgb
      [({ r with data := Samples.uint16 r.data }, registered_info_msg)]
    else if depth_image_msg.encoding = TYPE_32FC1 then
      let r := convert DepthTraits_float node
        { depth_image_msg with data := depth_image_msg.data.as_float }
        { header := header, height := height, width := width
          encoding := depth_image_msg.encoding, step := 0, data := [] }
        depth_to_rgb
      [({ r with data := Samples.float r.data }, registered_info_msg)]
    else []

/-! ## Vocabulary of the properties -/

/-- The cells `(nu, nv)` that the loop body of the source pixel `(u, v)` updates,
in the order of the loops, and the depth it writes to them; `none` when the pixel
is skipped by a `continue` (lines 241-305). -/
def footprint {T : Type} (tr : DepthTraits T) (node : RegisterNode) (depth_msg : Image (List T))
    (width height : Nat) (depth_to_rgb : Affine3d) (v u : Nat) : Option (List (Int × Int) × T) :=
  match rawDepth tr depth_msg v u with
  | none => none
  | some raw_depth =>
    if !tr.valid raw_depth then none
    else
      let depth := tr.toMeters raw_depth
      if node.fill_upsampling_holes_ == false then
        let t := pointTarget node depth_to_rgb v u depth
        let u_rgb := t.1.1
        let v_rgb := t.1.2
        if u_rgb < 0 || u_rgb ≥ castInt width || v_rgb < 0 || v_rgb ≥ castInt height then none
        else some ([(u_rgb, v_rgb)], tr.fromMeters t.2.z)
      else
        let t := cornerTargets node depth_to_rgb v u depth
        let u_rgb_1 := t.1.1.1
        let v_rgb_1 := t.1.1.2
        let u_rgb_2 := t.1.2.1
        let v_rgb_2 := t.1.2.2
        if u_rgb_1 < 0 || u_rgb_2 ≥ castInt width || v_rgb_1 < 0 || v_rgb_2 ≥ castInt height
        then none
        else
          some ((intRange v_rgb_1 v_rgb_2).flatMap fun nv =>
                  (intRange u_rgb_1 u_rgb_2).map fun nu => (nu, nv),
                tr.fromMeters (Dbl.half * (t.2.1.z + t.2.2.z)))

/-- The z-buffer updates of one footprint (lines 271-276, 307-316), in order. -/
def splat {T : Type} (tr : DepthTraits T) (width : Nat) (registered_data : List T)
    (f : List (Int × Int) × T) : List T :=
  f.1.foldl (fun reg c => zwrite tr reg (cellIndex width c.2 c.1) f.2) registered_data

/-- The body of the pixel loop for the source pixel `p = (v, u)`, as the z-buffer updates
of its footprint. -/
def pixelStep {T : Type} (tr : DepthTraits T) (node : RegisterNode) (depth_msg : Image (List T))
    (width height : Nat) (depth_to_rgb : Affine3d) (registered_data : List T) (p : Nat × Nat) :
    List T :=
  match footprint tr node depth_msg width height depth_to_rgb p.1 p.2 with
  | none => registered_data
  | some f => splat tr width registered_data f

/-- The source pixels `(v, u)` in the order the loops of lines 239-240 visit them. -/
def pixels (height width : Nat) : List (Nat × Nat) :=
  (List.range height).flatMap fun v => (List.range width).map fun u => (v, u)

/-- The buffer writes of a footprint: the index of each of its cells with the depth. -/
def footprintWrites {T : Type} (width : Nat) (f : List (Int × Int) × T) : List (Nat × T) :=
  f.1.map fun c => (cellIndex width c.2 c.1, f.2)

/-- The buffer writes of the source pixel `p = (v, u)`, in order. -/
def pixelWrites {T : Type} (tr : DepthTraits T) (node : RegisterNode)
    (depth_msg : Image (List T)) (width height : Nat) (depth_to_rgb : Affine3d)
    (p : Nat × Nat) : List (Nat × T) :=
  match footprint tr node depth_msg width height depth_to_rgb p.1 p.2 with
  | none => []
  | some f => footprintWrites width f

/-- All buffer writes of the pixel loop of `convert`, in order. -/
def allWrites {T : Type} (tr : DepthTraits T) (node : RegisterNode)
    (depth_msg : Image (List T)) (width height : Nat) (depth_to_rgb : Affine3d) :
    List (Nat × T) :=
  (pixels depth_msg.height depth_msg.width).flatMap
    (pixelWrites tr node depth_msg width height depth_to_rgb)

/-- The depths that a sequence of writes sends to the index `j`, in order. -/
def depthsAt {T : Type} (W : List (Nat × T)) (j : Nat) : List T :=
  (W.filter fun w => w.1 == j).map Prod.snd

/-- The buffer writes of the pixel loop of `convert` at an index outside the buffer that
line 218 allocates, in order. -/
def strayWrites {T : Type} (tr : DepthTraits T) (node : RegisterNode)
    (depth_msg registered_msg : Image (List T)) (depth_to_rgb : Affine3d) : List (Nat × T) :=
  (allWrites tr node depth_msg registered_msg.width registered_msg.height depth_to_rgb).filter
    fun w => decide ((initialData tr registered_msg.width registered_msg.height).length ≤ w.1)

/-- The comparison `>` of a sample type orders its valid samples: it is asymmetric,
`≤` (its negation) is transitive through a valid sample, and two valid samples
neither of which is greater than the other are equal. -/
structure ZOrder {T : Type} (tr : DepthTraits T) : Prop where
  asymm : ∀ a b, tr.gt a b = true → tr.gt b a = false
  trans : ∀ a b c, tr.valid b = true → tr.gt a b = false → tr.gt b c = false →
    tr.gt a c = false
  antisymm : ∀ a b, tr.valid a = true → tr.valid b = true → tr.gt a b = false →
    tr.gt b a = false → a = b

/-- The cell `c` of the target grid lies inside a grid of the given size. -/
def inGrid (width height : Nat) (c : Int × Int) : Prop :=
  0 ≤ c.1 ∧ c.1 < (width : Int) ∧ 0 ≤ c.2 ∧ c.2 < (height : Int)

/-- The source pixel `p = (v, u)` holds a valid sample, the point-sample policy computes
the target pixel `c` for it, and `z` is its depth in the RGB frame. -/
def projectsTo {T : Type} (tr : DepthTraits T) (node : RegisterNode)
    (depth_msg : Image (List T)) (depth_to_rgb : Affine3d) (p : Nat × Nat) (c : Int × Int)
    (z : Dbl) : Prop :=
  ∃ raw, rawDepth tr depth_msg p.1 p.2 = some raw ∧ tr.valid raw = true ∧
    (pointTarget node depth_to_rgb p.1 p.2 (tr.toMeters raw)).1 = c ∧
    (pointTarget node depth_to_rgb p.1 p.2 (tr.toMeters raw)).2.z = z

/-- Two camera models have the same intrinsics `fx`, `fy`, `cx`, `cy`, `Tx`, `Ty`. -/
def sameIntrinsics (a b : PinholeCameraModel) : Prop :=
  a.fx = b.fx ∧ a.fy = b.fy ∧ a.cx = b.cx ∧ a.cy = b.cy ∧ a.Tx = b.Tx ∧ a.Ty = b.Ty

/-- The node with its policy flag set to `fill`. -/
def withPolicy (node : RegisterNode) (fill : Bool) : RegisterNode :=
  { node with fill_upsampling_holes_ := fill }

/-- The size in bytes of a sample of a supported encoding: 2 for `16UC1`, 4 for `32FC1`. -/
def sampleSize (encoding : String) : Nat :=
  if encoding = TYPE_16UC1 then 2 else 4

/-! ## The specification's reading of the projection -/

/-- Rounding to the nearest integer, halves up: `floor (x + 1/2)`. -/
def roundHalfUp (x : ℚ) : Int := ⌊x + 1 / 2⌋

/-- The point `(X', Y', Z')` of the RGB frame as the specification words it: the
transform of `X = ((u - cx) depth - Tx) / fx`, `Y = ((v - cy) depth - Ty) / fy`,
`Z = depth`. -/
def specPoint (node : RegisterNode) (t : Affine3d) (v u : Nat) (depth : ℚ) : ℚ × ℚ × ℚ :=
  let X := (((u : ℚ) - node.depth_model_.cx) * depth - node.depth_model_.Tx) / node.depth_model_.fx
  let Y := (((v : ℚ) - node.depth_model_.cy) * depth - node.depth_model_.Ty) / node.depth_model_.fy
  let Z := depth
  (t.m00 * X + t.m01 * Y + t.m02 * Z + t.m03,
   t.m10 * X + t.m11 * Y + t.m12 * Z + t.m13,
   t.m20 * X + t.m21 * Y + t.m22 * Z + t.m23)

/-- The projection into the target image as the specification words it, before rounding:
`fx X'/Z' + Tx/Z' + cx` and `fy Y'/Z' + Ty/Z' + cy`. -/
def specProjection (node : RegisterNode) (t : Affine3d) (v u : Nat) (depth : ℚ) : ℚ × ℚ :=
  let P := specPoint node t v u depth
  (node.rgb_model_.fx * P.1 / P.2.2 + node.rgb_model_.Tx / P.2.2 + node.rgb_model_.cx,
   node.rgb_model_.fy * P.2.1 / P.2.2 + node.rgb_model_.Ty / P.2.2 + node.rgb_model_.cy)

/-- The target pixel as the specification words it: the projection, each coordinate
rounded half up. -/
def specTarget (node : RegisterNode) (t : Affine3d) (v u : Nat) (depth : ℚ) : Int × Int :=
  (roundHalfUp (specProjection node t v u depth).1,
   roundHalfUp (specProjection node t v u depth).2)

/-- The corner projection as the specification words it: both corners are projected with
the inverse depth of the first corner. -/
def cornerTargetsFirstInvZ (node : RegisterNode) (depth_to_rgb : Affine3d) (v u : Nat)
    (depth : Dbl) : (Int × Int) × (Int × Int) :=
  let xyz_depth_1 := unproject node.depth_model_ ((u : ℚ) - 1 / 2) ((v : ℚ) - 1 / 2) depth
  let xyz_depth_2 := unproject node.depth_model_ ((u : ℚ) + 1 / 2) ((v : ℚ) + 1 / 2) depth
  let xyz_rgb_1 := depth_to_rgb.apply xyz_depth_1
  let xyz_rgb_2 := depth_to_rgb.apply xyz_depth_2
  let inv_Z := Dbl.one / xyz_rgb_1.z
  (projectWith node.rgb_model_ xyz_rgb_1 inv_Z, projectWith node.rgb_model_ xyz_rgb_2 inv_Z)

/-! ## Concrete inputs -/

/-- The camera of the scenario of the specification: `fx = fy = 100`, `cx = cy = 2`,
`Tx = Ty = 0`, on a 4x4 grid. -/
def scenarioCamera : PinholeCameraModel :=
  { fx := 100, fy := 100, cx := 2, cy := 2, Tx := 0, Ty := 0, reducedWidth := 4, reducedHeight := 4 }

/-- A camera whose optical axis passes through the pixel `(0, 0)`: `fx = fy = 100`,
`cx = cy = 0`, `Tx = Ty = 0`, on a 1x1 grid. -/
def axisCamera : PinholeCameraModel :=
  { fx := 100, fy := 100, cx := 0, cy := 0, Tx := 0, Ty := 0, reducedWidth := 1, reducedHeight := 1 }

/-- A node with the scenario camera on both sides and the point-sample policy. -/
def nodePoint : RegisterNode :=
  { depth_model_ := scenarioCamera, rgb_model_ := scenarioCamera, fill_upsampling_holes_ := false }

/-- A node with the scenario camera on both sides and the hole-filling policy. -/
def nodeFill : RegisterNode :=
  { depth_model_ := scenarioCamera, rgb_model_ := scenarioCamera, fill_upsampling_holes_ := true }

/-- A node with the axis camera on both sides and the point-sample policy. -/
def nodeAxis : RegisterNode :=
  { depth_model_ := axisCamera, rgb_model_ := axisCamera, fill_upsampling_holes_ := false }

/-- The rigid transform that moves a point 7 mm to the left (no rotation). -/
def leftShift : Affine3d :=
  { m00 := 1, m01 := 0, m02 := 0, m03 := -7 / 1000
    m10 := 0, m11 := 1, m12 := 0, m13 := 0
    m20 := 0, m21 := 0, m22 := 1, m23 := 0 }

/-- The rotation about the vertical axis with cosine 3/5 and sine 4/5. -/
def tilt : Affine3d :=
  { m00 := 3 / 5, m01 := 0, m02 := 4 / 5, m03 := 0
    m10 := 0, m11 := 1, m12 := 0, m13 := 0
    m20 := -4 / 5, m21 := 0, m22 := 3 / 5, m23 := 0 }

/-- A header. -/
def someHeader : Header := { stamp := { sec := 7, nanosec := 5 }, frame_id := "depth" }

/-- A registered message as `imageCb` hands it to `convert`: the size is set, the
step and the data are not. -/
def emptyRegistered {T : Type} (width height : Nat) : Image (List T) :=
  { header := someHeader, height := height, width := width, encoding := "", step := 0, data := [] }

/-- The 4x4 16-bit depth image of the scenario of the specification: all samples 1000. -/
def scenarioImage : Image (List Nat) :=
  { header := someHeader, height := 4, width := 4, encoding := TYPE_16UC1, step := 8
    data := List.replicate 16 1000 }

/-- A 1x1 16-bit depth image with the sample 1000 (1 m). -/
def oneSample : Image (List Nat) :=
  { header := someHeader, height := 1, width := 1, encoding := TYPE_16UC1, step := 2
    data := [1000] }

/-- A 2x2 floating-point depth image all of whose samples are NaN. -/
def nanImage : Image (List Flt) :=
  { header := someHeader, height := 2, width := 2, encoding := TYPE_32FC1, step := 8
    data := [Flt.nan, Flt.nan, Flt.nan, Flt.nan] }

/-- The 4x4 floating-point depth image with all samples 1.0 except a sample 0.0 at the
pixel `(1, 1)`. -/
def zeroDepthImage : Image (List Flt) :=
  { header := someHeader, height := 4, width := 4, encoding := TYPE_32FC1, step := 16
    data := (List.replicate 16 (Flt.fin 1)).set 5 (Flt.fin 0) }

/-- Collaborators for the examples: the camera model of a record has the scenario
intrinsics and the resolution of the record, and the lookup succeeds with the identity
exactly when the two frames are named. -/
def someServices : Services :=
  { fromCameraInfo := fun info =>
      { fx := 100, fy := 100, cx := 2, cy := 2, Tx := 0, Ty := 0
        reducedWidth := info.width, reducedHeight := info.height }
    lookupTransform := fun target source _ =>
      if target = "" ∨ source = "" then none else some Affine3d.identity }

/-- A camera info record of the given frame, time and resolution. -/
def someInfo (frame_id : String) (sec : Int) (width height : Nat) : CameraInfo :=
  { header := { stamp := { sec := sec, nanosec := 0 }, frame_id := frame_id }
    height := height, width := width, distortion_model := "plumb_bob"
    d := [], k := [], r := [], p := [], binning_x := 1, binning_y := 1
    roi := { x_offset := 0, y_offset := 0, height := 0, width := 0, do_rectify := false } }

/-- A received 2x2 depth image of the given encoding; its bytes read as the 16-bit
samples 1000 and as the floating-point samples 1.0. -/
def someDepthImage (encoding : String) : Image Bytes :=
  { header := someHeader, height := 2, width := 2, encoding := encoding, step := 4
    data := { as_uint16 := [1000, 1000, 1000, 1000]
              as_float := [Flt.fin 1, Flt.fin 1, Flt.fin 1, Flt.fin 1] } }

/-- A received 1x1 16-bit depth image whose sample is invalid. -/
def blankDepthImage : Image Bytes :=
  { header := someHeader, height := 1, width := 1, encoding := TYPE_16UC1, step := 2
    data := { as_uint16 := [0], as_float := [] } }

/-- The image and camera info that `imageCb` publishes for the 2x2 16-bit example image
and a 3x2 target camera. -/
def somePublished : Image Samples × CameraInfo :=
  ({ header := { stamp := someHeader.stamp, frame_id := "rgb" }
     height := 2, width := 3, encoding := TYPE_16UC1, step := 6
     data := Samples.uint16 [1000, 1000, 0, 1000, 1000, 0] },
   { someInfo "rgb" 9 3 2 with header := { stamp := someHeader.stamp, frame_id := "rgb" } })

/-- A target camera with a tenth of the focal length of the axis camera and its principal
point at `(640.25, 6700416.25)`, on a grid of 641 columns and 6700417 rows. -/
def hugeCamera : PinholeCameraModel :=
  { fx := 10, fy := 10, cx := 2561 / 4, cy := 26801665 / 4, Tx := 0, Ty := 0
    reducedWidth := 641, reducedHeight := 6700417 }

/-- A node that registers the axis camera into the huge camera, point-sample policy. -/
def nodeHuge : RegisterNode :=
  { depth_model_ := axisCamera, rgb_model_ := hugeCamera, fill_upsampling_holes_ := false }

/-- The axis camera on a grid of 65536 columns and 32768 rows. -/
def bigCamera : PinholeCameraModel :=
  { fx := 100, fy := 100, cx := 0, cy := 0, Tx := 0, Ty := 0
    reducedWidth := 65536, reducedHeight := 32768 }

/-- A node that registers the axis camera into the big camera, point-sample policy. -/
def nodeBig : RegisterNode :=
  { depth_model_ := axisCamera, rgb_model_ := bigCamera, fill_upsampling_holes_ := false }

/-- The source pixel `p = (v, u)` holds a valid sample. -/
def validSource {T : Type} (tr : DepthTraits T) (depth_msg : Image (List T)) (p : Nat × Nat) :
    Bool :=
  match rawDepth tr depth_msg p.1 p.2 with
  | none => false
  | some raw => tr.valid raw

/-- The provenance of the depths of the registered buffer under the point-sample policy:
every valid element of the buffer is the stored depth of a valid source pixel whose target
pixel lies in the grid and has the buffer index of the element; when the grid has at most
`2^32` cells, every valid cell `c` of the grid is the stored depth of a valid source pixel
whose target pixel is `c`; and the valid cells are at most as many as the valid source
pixels. -/
def Provenance {T : Type} (tr : DepthTraits T) (node : RegisterNode)
    (depth_msg registered_msg : Image (List T)) (depth_to_rgb : Affine3d) : Prop :=
  (∀ j x, (convert tr node depth_msg registered_msg depth_to_rgb).data[j]? = some x →
    tr.valid x = true →
    ∃ p ∈ pixels depth_msg.height depth_msg.width, ∃ c z,
      projectsTo tr node depth_msg depth_to_rgb p c z ∧
      inGrid registered_msg.width registered_msg.height c ∧
      cellIndex registered_msg.width c.2 c.1 = j ∧ x = tr.fromMeters z) ∧
  (registered_msg.width * registered_msg.height ≤ UINT32 →
    ∀ c, inGrid registered_msg.width registered_msg.height c →
    ∀ x, (convert tr node depth_msg registered_msg depth_to_rgb).data[
        c.2.toNat * registered_msg.width + c.1.toNat]? = some x →
    tr.valid x = true →
    ∃ p ∈ pixels depth_msg.height depth_msg.width, ∃ z,
      projectsTo tr node depth_msg depth_to_rgb p c z ∧ x = tr.fromMeters z) ∧
  (convert tr node depth_msg registered_msg depth_to_rgb).data.countP tr.valid ≤
    (pixels depth_msg.height depth_msg.width).countP (validSource tr depth_msg)

/-! # Properties -/

/-! ## Rounding to `float` -/

/-- A loop nest over a rectangle is one loop over its cells, row by row. -/
theorem foldl_rectangle {α β γ : Type} (rows : List α) (cols : List β) (g : γ → α → β → γ)
    (init : γ) :
    rows.foldl (fun acc a => cols.foldl (fun acc b => g acc a b) acc) init =
      (rows.flatMap fun a => cols.map fun b => (a, b)).foldl (fun acc c => g acc c.1 c.2) init := by
  induction rows generalizing init with
  | nil => rfl
  | cons a rows ih =>
    rw [List.foldl_cons, ih, List.flatMap_cons, List.foldl_append, List.foldl_map]

theorem zwrite_length {T : Type} (tr : DepthTraits T) (reg : List T) (i : Nat) (d : T) :
    (zwrite tr reg i d).length = reg.length := by
  unfold zwrite
  cases reg[i]? <;> simp

theorem zwrite_getElem? {T : Type} (tr : DepthTraits T) (reg : List T) (i j : Nat) (d : T) :
    (zwrite tr reg i d)[j]? =
      if i = j then (reg[j]?).map (fun x => updateCell tr x d) else reg[j]? := by
  unfold zwrite
  by_cases hij : i = j
  · subst hij
    cases h : reg[i]? with
    | none => simp [h]
    | some x =>
      have hlt : i < reg.length := by
        by_contra hge
        rw [List.getElem?_eq_none (by omega)] at h
        exact Option.noConfusion h
      simp [List.getElem?_set, hlt]
  · cases h : reg[i]? with
    | none => simp [hij]
    | some x => simp [hij, List.getElem?_set]

theorem foldl_zwrite_length {T : Type} (tr : DepthTraits T) (W : List (Nat × T)) (reg : List T) :
    (W.foldl (fun r w => zwrite tr r w.1 w.2) reg).length = reg.length := by
  induction W generalizing reg with
  | nil => rfl
  | cons w W ih => simp [List.foldl_cons, ih, zwrite_length]

/-- The cell at index `j` after a sequence of z-buffer updates is the cell before,
updated with the depths written at `j`, in order. -/
theorem foldl_zwrite_getElem? {T : Type} (tr : DepthTraits T) (W : List (Nat × T))
    (reg : List T) (j : Nat) :
    (W.foldl (fun r w => zwrite tr r w.1 w.2) reg)[j]? =
      (reg[j]?).map (fun x => (depthsAt W j).foldl (updateCell tr) x) := by
  induction W generalizing reg with
  | nil => simp [depthsAt]
  | cons w W ih =>
    rw [List.foldl_cons, ih, zwrite_getElem?]
    by_cases hw : w.1 = j
    · cases h : reg[j]? <;> simp [depthsAt, hw, h]
    · cases h : reg[j]? <;> simp [depthsAt, hw, h]

theorem splat_eq_foldl {T : Type} (tr : DepthTraits T) (width : Nat) (reg : List T)
    (f : List (Int × Int) × T) :
    splat tr width reg f =
      (footprintWrites width f).foldl (fun r w => zwrite tr r w.1 w.2) reg := by
  simp [splat, footprintWrites, List.foldl_map]

theorem pixelStep_eq_foldl {T : Type} (tr : DepthTraits T) (node : RegisterNode)
    (depth_msg : Image (List T)) (width height : Nat) (depth_to_rgb : Affine3d) (reg : List T)
    (p : Nat × Nat) :
    pixelStep tr node depth_msg width height depth_to_rgb reg p =
      (pixelWrites tr node depth_msg width height depth_to_rgb p).foldl
        (fun r w => zwrite tr r w.1 w.2) reg := by
  unfold pixelStep pixelWrites
  cases footprint tr node depth_msg width height depth_to_rgb p.1 p.2 with
  | none => rfl
  | some f => exact splat_eq_foldl tr width reg f

theorem foldl_pixelStep_eq {T : Type} (tr : DepthTraits T) (node : RegisterNode)
    (depth_msg : Image (List T)) (width height : Nat) (depth_to_rgb : Affine3d)
    (ps : List (Nat × Nat)) (reg : List T) :
    ps.foldl (pixelStep tr node depth_msg width height depth_to_rgb) reg =
      (ps.flatMap (pixelWrites tr node depth_msg width height depth_to_rgb)).foldl
        (fun r w => zwrite tr r w.1 w.2) reg := by
  induction ps generalizing reg with
  | nil => rfl
  | cons p ps ih =>
    rw [List.foldl_cons, ih, List.flatMap_cons, List.foldl_append, pixelStep_eq_foldl]

/-- The loop body, statement by statement, performs the z-buffer updates of the footprint
of the pixel, in order. -/
theorem pixelBody_eq_pixelStep {T : Type} (tr : DepthTraits T) (node : RegisterNode)
    (depth_msg : Image (List T)) (width height : Nat) (depth_to_rgb : Affine3d) (reg : List T)
    (v u : Nat) :
    pixelBody tr node depth_msg width height depth_to_rgb reg v u =
      pixelStep tr node depth_msg width height depth_to_rgb reg (v, u) := by
  unfold pixelBody pixelStep footprint
  cases rawDepth tr depth_msg v u with
  | none => rfl
  | some raw =>
    simp only
    split_ifs
    · rfl
    · rfl
    · rfl
    · rfl
    · simp only [splat]
      rw [foldl_rectangle]
      have hswap : ∀ (rows cols : List Int),
          (rows.flatMap fun nv => cols.map fun nu => (nu, nv)) =
            (rows.flatMap fun nv => cols.map fun nu => (nv, nu)).map Prod.swap := by
        intro rows cols
        simp [List.map_flatMap, Function.comp_def]
      rw [hswap, List.foldl_map]
      rfl

theorem convert_data_foldl {T : Type} (tr : DepthTraits T) (node : RegisterNode)
    (depth_msg registered_msg : Image (List T)) (depth_to_rgb : Affine3d) :
    (convert tr node depth_msg registered_msg depth_to_rgb).data =
      (pixels depth_msg.height depth_msg.width).foldl
        (pixelStep tr node depth_msg registered_msg.width registered_msg.height depth_to_rgb)
        (initialData tr registered_msg.width registered_msg.height) := by
  unfold convert pixels
  simp only
  rw [foldl_rectangle]
  congr 1
  funext reg p
  exact pixelBody_eq_pixelStep tr node depth_msg _ _ depth_to_rgb reg p.1 p.2

theorem mem_pixels (height width : Nat) (p : Nat × Nat) :
    p ∈ pixels height width ↔ p.1 < height ∧ p.2 < width := by
  obtain ⟨v, u⟩ := p
  simp only [pixels, List.mem_flatMap, List.mem_range, List.mem_map, Prod.mk.injEq]
  constructor
  · rintro ⟨a, ha, b, hb, rfl, rfl⟩
    exact ⟨ha, hb⟩
  · rintro ⟨hv, hu⟩
    exact ⟨v, hv, u, hu, rfl, rfl⟩

/-! ## Skipped pixels and the initial buffer -/

theorem pixelStep_of_footprint_none {T : Type} (tr : DepthTraits T) (node : RegisterNode)
    (depth_msg : Image (List T)) (width height : Nat) (depth_to_rgb : Affine3d) (reg : List T)
    (p : Nat × Nat)
    (h : footprint tr node depth_msg width height depth_to_rgb p.1 p.2 = none) :
    pixelStep tr node depth_msg width height depth_to_rgb reg p = reg := by
  simp [pixelStep, h]

theorem footprint_none_of_invalid {T : Type} (tr : DepthTraits T) (node : RegisterNode)
    (depth_msg : Image (List T)) (width height : Nat) (depth_to_rgb : Affine3d) (v u : Nat)
    (h : ∀ raw, rawDepth tr depth_msg v u = some raw → tr.valid raw = false) :
    footprint tr node depth_msg width height depth_to_rgb v u = none := by
  unfold footprint
  cases hr : rawDepth tr depth_msg v u with
  | none => rfl
  | some raw => simp [h raw hr]

theorem foldl_pixelStep_of_none {T : Type} (tr : DepthTraits T) (node : RegisterNode)
    (depth_msg : Image (List T)) (width height : Nat) (depth_to_rgb : Affine3d)
    (ps : List (Nat × Nat)) (reg : List T)
    (h : ∀ p ∈ ps, footprint tr node depth_msg width height depth_to_rgb p.1 p.2 = none) :
    ps.foldl (pixelStep tr node depth_msg width height depth_to_rgb) reg = reg := by
  induction ps generalizing reg with
  | nil => rfl
  | cons p ps ih =>
    rw [List.foldl_cons, pixelStep_of_footprint_none tr node depth_msg width height depth_to_rgb
      reg p (h p (List.mem_cons_self p ps))]
    exact ih reg fun q hq => h q (List.mem_cons_of_mem p hq)

theorem convert_data_of_all_invalid {T : Type} (tr : DepthTraits T) (node : RegisterNode)
    (depth_msg registered_msg : Image (List T)) (depth_to_rgb : Affine3d)
    (h : ∀ v < depth_msg.height, ∀ u < depth_msg.width, ∀ raw,
      rawDepth tr depth_msg v u = some raw → tr.valid raw = false) :
    (convert tr node depth_msg registered_msg depth_to_rgb).data =
      initialData tr registered_msg.width registered_msg.height := by
  rw [convert_data_foldl]
  apply foldl_pixelStep_of_none
  intro p hp
  rw [mem_pixels] at hp
  exact footprint_none_of_invalid tr node depth_msg _ _ depth_to_rgb p.1 p.2 (h p.1 hp.1 p.2 hp.2)

theorem initialData_uint16 (width height : Nat) :
    initialData DepthTraits_uint16 width height =
      List.replicate (((height * ((width * 2) % UINT32)) % UINT32) / 2) 0 := rfl

theorem initialData_float (width height : Nat) :
    initialData DepthTraits_float width height =
      List.replicate (((height * ((width * 4) % UINT32)) % UINT32) / 4) Flt.nan := by
  simp [initialData, DepthTraits_float, registeredStep]

/-- C3 (invalid-in-invalid-out): for the 16-bit and for the floating-point encoding,
whatever the policy, the camera models and the transform, a depth image all of whose
samples are invalid is registered to a buffer all of whose cells are invalid. -/
theorem invalid_in_invalid_out (node : RegisterNode) (depth_to_rgb : Affine3d) :
    (∀ depth_msg registered_msg : Image (List Nat),
      (∀ v < depth_msg.height, ∀ u < depth_msg.width, ∀ raw,
        rawDepth DepthTraits_uint16 depth_msg v u = some raw →
          DepthTraits_uint16.valid raw = false) →
      ∀ x ∈ (convert DepthTraits_uint16 node depth_msg registered_msg depth_to_rgb).data,
        DepthTraits_uint16.valid x = false) ∧
    (∀ depth_msg registered_msg : Image (List Flt),
      (∀ v < depth_msg.height, ∀ u < depth_msg.width, ∀ raw,
        rawDepth DepthTraits_float depth_msg v u = some raw →
          DepthTraits_float.valid raw = false) →
      ∀ x ∈ (convert DepthTraits_float node depth_msg registered_msg depth_to_rgb).data,
        DepthTraits_float.valid x = false) := by
  constructor
  · intro depth_msg registered_msg h x hx
    rw [convert_data_of_all_invalid _ node depth_msg registered_msg depth_to_rgb h,
      initialData_uint16] at hx
    rw [List.eq_of_mem_replicate hx]
    rfl
  · intro depth_msg registered_msg h x hx
    rw [convert_data_of_all_invalid _ node depth_msg registered_msg depth_to_rgb h,
      initialData_float] at hx
    rw [List.eq_of_mem_replicate hx]
    rfl

/-- C3 at a 2x2 floating-point image of NaN samples, registered with the hole-filling
policy into a 3x2 grid. -/
theorem invalid_in_invalid_out_witness :
    ∀ x ∈ (convert DepthTraits_float nodeFill nanImage (emptyRegistered 3 2)
        Affine3d.identity).data, DepthTraits_float.valid x = false :=
  (invalid_in_invalid_out nodeFill Affine3d.identity).2 nanImage (emptyRegistered 3 2) (by
    intro v hv u hu raw hraw
    have hmem : raw ∈ nanImage.data := List.mem_iff_getElem?.mpr ⟨_, hraw⟩
    have hall : ∀ y ∈ nanImage.data, DepthTraits_float.valid y = false := by decide
    exact hall raw hmem)

/-! ## The bounds checks -/

theorem castInt_le (n : Nat) : castInt n ≤ (n : Int) := by
  unfold castInt
  have h : (n % UINT32 : Nat) ≤ n := Nat.mod_le n UINT32
  split_ifs <;> omega

theorem mem_intRange (a b c : Int) : c ∈ intRange a b ↔ a ≤ c ∧ c ≤ b := by
  rw [intRange, List.mem_map]
  constructor
  · rintro ⟨k, hk, rfl⟩
    rw [List.mem_range] at hk
    omega
  · rintro ⟨h1, h2⟩
    refine ⟨(c - a).toNat, ?_, ?_⟩
    · rw [List.mem_range]; omega
    · omega

theorem footprint_point {T : Type} (tr : DepthTraits T) (node : RegisterNode)
    (depth_msg : Image (List T)) (width height : Nat) (depth_to_rgb : Affine3d) (v u : Nat)
    (raw : T) (hfill : node.fill_upsampling_holes_ = false)
    (hraw : rawDepth tr depth_msg v u = some raw) (hvalid : tr.valid raw = true) :
    footprint tr node depth_msg width height depth_to_rgb v u =
      if (pointTarget node depth_to_rgb v u (tr.toMeters raw)).1.1 < 0 ∨
          castInt width ≤ (pointTarget node depth_to_rgb v u (tr.toMeters raw)).1.1 ∨
          (pointTarget node depth_to_rgb v u (tr.toMeters raw)).1.2 < 0 ∨
          castInt height ≤ (pointTarget node depth_to_rgb v u (tr.toMeters raw)).1.2
      then none
      else some ([(pointTarget node depth_to_rgb v u (tr.toMeters raw)).1],
        tr.fromMeters (pointTarget node depth_to_rgb v u (tr.toMeters raw)).2.z) := by
  unfold footprint
  simp only [hraw, hvalid, hfill, Bool.not_true, Bool.false_eq_true, if_false, beq_self_eq_true,
    if_true, Bool.or_eq_true, decide_eq_true_eq, ge_iff_le]
  simp only [or_assoc]

theorem footprint_fill {T : Type} (tr : DepthTraits T) (node : RegisterNode)
    (depth_msg : Image (List T)) (width height : Nat) (depth_to_rgb : Affine3d) (v u : Nat)
    (raw : T) (hfill : node.fill_upsampling_holes_ = true)
    (hraw : rawDepth tr depth_msg v u = some raw) (hvalid : tr.valid raw = true) :
    footprint tr node depth_msg width height depth_to_rgb v u =
      if (cornerTargets node depth_to_rgb v u (tr.toMeters raw)).1.1.1 < 0 ∨
          castInt width ≤ (cornerTargets node depth_to_rgb v u (tr.toMeters raw)).1.2.1 ∨
          (cornerTargets node depth_to_rgb v u (tr.toMeters raw)).1.1.2 < 0 ∨
          castInt height ≤ (cornerTargets node depth_to_rgb v u (tr.toMeters raw)).1.2.2
      then none
      else some
        ((intRange (cornerTargets node depth_to_rgb v u (tr.toMeters raw)).1.1.2
            (cornerTargets node depth_to_rgb v u (tr.toMeters raw)).1.2.2).flatMap fun nv =>
          (intRange (cornerTargets node depth_to_rgb v u (tr.toMeters raw)).1.1.1
            (cornerTargets node depth_to_rgb v u (tr.toMeters raw)).1.2.1).map fun nu => (nu, nv),
        tr.fromMeters (Dbl.half *
          ((cornerTargets node depth_to_rgb v u (tr.toMeters raw)).2.1.z +
            (cornerTargets node depth_to_rgb v u (tr.toMeters raw)).2.2.z))) := by
  unfold footprint
  simp only [hraw, hvalid, hfill, Bool.not_true, Bool.false_eq_true, if_false,
    Bool.or_eq_true, decide_eq_true_eq, ge_iff_le]
  simp only [or_assoc]
  rfl

theorem footprint_valid_raw {T : Type} (tr : DepthTraits T) (node : RegisterNode)
    (depth_msg : Image (List T)) (width height : Nat) (depth_to_rgb : Affine3d) (v u : Nat)
    (f : List (Int × Int) × T)
    (h : footprint tr node depth_msg width height depth_to_rgb v u = some f) :
    ∃ raw, rawDepth tr depth_msg v u = some raw ∧ tr.valid raw = true := by
  cases hr : rawDepth tr depth_msg v u with
  | none => simp [footprint, hr] at h
  | some raw =>
    cases hv : tr.valid raw with
    | false => simp [footprint, hr, hv] at h
    | true => exact ⟨raw, rfl, hv⟩

theorem footprint_cells_in_grid {T : Type} (tr : DepthTraits T) (node : RegisterNode)
    (depth_msg : Image (List T)) (width height : Nat) (depth_to_rgb : Affine3d) (v u : Nat)
    (f : List (Int × Int) × T)
    (h : footprint tr node depth_msg width height depth_to_rgb v u = some f)
    (c : Int × Int) (hc : c ∈ f.1) :
    0 ≤ c.1 ∧ c.1 < (width : Int) ∧ 0 ≤ c.2 ∧ c.2 < (height : Int) := by
  obtain ⟨raw, hraw, hvalid⟩ := footprint_valid_raw tr node depth_msg width height depth_to_rgb v u f h
  have hw := castInt_le width
  have hh := castInt_le height
  cases hfill : node.fill_upsampling_holes_ with
  | false =>
    rw [footprint_point tr node depth_msg width height depth_to_rgb v u raw hfill hraw hvalid] at h
    split_ifs at h with hcheck
    injection h with h
    subst h
    simp only [List.mem_singleton] at hc
    subst hc
    omega
  | true =>
    rw [footprint_fill tr node depth_msg width height depth_to_rgb v u raw hfill hraw hvalid] at h
    split_ifs at h with hcheck
    injection h with h
    subst h
    simp only [List.mem_flatMap, List.mem_map, mem_intRange] at hc
    obtain ⟨nv, ⟨hv1, hv2⟩, nu, ⟨hu1, hu2⟩, rfl⟩ := hc
    simp only
    omega

theorem cellIndex_of_in_grid (width height : Nat) (hsize : width * height ≤ UINT32)
    (c : Int × Int) (hc : 0 ≤ c.1 ∧ c.1 < (width : Int) ∧ 0 ≤ c.2 ∧ c.2 < (height : Int)) :
    cellIndex width c.2 c.1 = c.2.toNat * width + c.1.toNat ∧
      cellIndex width c.2 c.1 < width * height := by
  obtain ⟨h1, h2, h3, h4⟩ := hc
  have hu : (c.1.toNat : Int) = c.1 := Int.toNat_of_nonneg h1
  have hv : (c.2.toNat : Int) = c.2 := Int.toNat_of_nonneg h3
  have hu' : c.1.toNat < width := by omega
  have hv' : c.2.toNat < height := by omega
  have hlt : c.2.toNat * width + c.1.toNat < width * height := by
    calc c.2.toNat * width + c.1.toNat < c.2.toNat * width + width := by omega
      _ = (c.2.toNat + 1) * width := by ring
      _ ≤ height * width := Nat.mul_le_mul_right width hv'
      _ = width * height := Nat.mul_comm _ _
  have hidx : cellIndex width c.2 c.1 = c.2.toNat * width + c.1.toNat := by
    unfold cellIndex
    rw [← hu, ← hv]
    have : ((c.2.toNat : Int) * (width : Int) + (c.1.toNat : Int)) % (UINT32 : Int) =
        ((c.2.toNat * width + c.1.toNat : Nat) : Int) := by
      have hmod : (c.2.toNat * width + c.1.toNat) % UINT32 = c.2.toNat * width + c.1.toNat :=
        Nat.mod_eq_of_lt (by omega)
      rw [← hmod]
      push_cast
      rfl
    rw [this]
    exact Int.toNat_natCast _
  exact ⟨hidx, hidx ▸ hlt⟩

/-! ## The z-buffer of one cell -/

theorem updateCell_of_invalid {T : Type} (tr : DepthTraits T) (x d : T)
    (hx : tr.valid x = false) : updateCell tr x d = d := by
  simp [updateCell, hx]

/-- A cell after a sequence of z-buffer updates holds its old value or one of the depths. -/
theorem cellFold_mem {T : Type} (tr : DepthTraits T) (ds : List T) (x : T) :
    ds.foldl (updateCell tr) x = x ∨ ds.foldl (updateCell tr) x ∈ ds := by
  induction ds generalizing x with
  | nil => exact Or.inl rfl
  | cons d ds ih =>
    rw [List.foldl_cons]
    rcases ih (updateCell tr x d) with h | h
    · rw [h]
      unfold updateCell
      split_ifs
      · exact Or.inr (List.mem_cons_self d ds)
      · exact Or.inl rfl
    · exact Or.inr (List.mem_cons_of_mem d h)

/-- Updating a valid cell with valid depths: the cell stays valid, does not grow, holds
its old value or one of the depths, and none of the depths is below it. -/
theorem cellFold_of_valid {T : Type} (tr : DepthTraits T) (ord : ZOrder tr) (ds : List T)
    (hds : ∀ d ∈ ds, tr.valid d = true) (x : T) (hx : tr.valid x = true) :
    tr.valid (ds.foldl (updateCell tr) x) = true ∧
      tr.gt (ds.foldl (updateCell tr) x) x = false ∧
      (ds.foldl (updateCell tr) x = x ∨ ds.foldl (updateCell tr) x ∈ ds) ∧
      ∀ d ∈ ds, tr.gt (ds.foldl (updateCell tr) x) d = false := by
  induction ds generalizing x with
  | nil =>
    refine ⟨hx, ?_, Or.inl rfl, fun d hd => absurd hd (List.not_mem_nil d)⟩
    cases h : tr.gt x x with
    | false => exact h
    | true => rw [ord.asymm x x h] at h; exact Bool.noConfusion h
  | cons d ds ih =>
    have hd : tr.valid d = true := hds d (List.mem_cons_self d ds)
    have hds' : ∀ e ∈ ds, tr.valid e = true := fun e he => hds e (List.mem_cons_of_mem d he)
    rw [List.foldl_cons]
    cases hg : tr.gt x d with
    | true =>
      have hupd : updateCell tr x d = d := by simp [updateCell, hg]
      rw [hupd]
      obtain ⟨h1, h2, h3, h4⟩ := ih hds' d hd
      refine ⟨h1, ord.trans _ d x hd h2 (ord.asymm x d hg), ?_, ?_⟩
      · rcases h3 with h3 | h3
        · exact Or.inr (by rw [h3]; exact List.mem_cons_self d ds)
        · exact Or.inr (List.mem_cons_of_mem d h3)
      · intro e he
        rcases List.mem_cons.mp he with rfl | he
        · exact h2
        · exact h4 e he
    | false =>
      have hupd : updateCell tr x d = x := by simp [updateCell, hg, hx]
      rw [hupd]
      obtain ⟨h1, h2, h3, h4⟩ := ih hds' x hx
      refine ⟨h1, h2, ?_, ?_⟩
      · rcases h3 with h3 | h3
        · exact Or.inl h3
        · exact Or.inr (List.mem_cons_of_mem d h3)
      · intro e he
        rcases List.mem_cons.mp he with rfl | he
        · exact ord.trans _ x e hx h2 hg
        · exact h4 e he

/-- Updating an invalid cell with at least one depth, all of them valid: the cell ends
valid and holds one of the depths, none of which is below it. -/
theorem cellFold_of_invalid {T : Type} (tr : DepthTraits T) (ord : ZOrder tr) (ds : List T)
    (hds : ∀ d ∈ ds, tr.valid d = true) (hne : ds ≠ []) (x : T) (hx : tr.valid x = false) :
    tr.valid (ds.foldl (updateCell tr) x) = true ∧
      ds.foldl (updateCell tr) x ∈ ds ∧
      ∀ d ∈ ds, tr.gt (ds.foldl (updateCell tr) x) d = false := by
  cases ds with
  | nil => exact absurd rfl hne
  | cons d ds =>
    have hd : tr.valid d = true := hds d (List.mem_cons_self d ds)
    have hds' : ∀ e ∈ ds, tr.valid e = true := fun e he => hds e (List.mem_cons_of_mem d he)
    rw [List.foldl_cons, updateCell_of_invalid tr x d hx]
    obtain ⟨h1, h2, h3, h4⟩ := cellFold_of_valid tr ord ds hds' d hd
    refine ⟨h1, ?_, ?_⟩
    · rcases h3 with h3 | h3
      · rw [h3]; exact List.mem_cons_self d ds
      · exact List.mem_cons_of_mem d h3
    · intro e he
      rcases List.mem_cons.mp he with rfl | he
      · exact h2
      · exact h4 e he

/-- The z-buffer of an invalid cell does not depend on the order of the valid depths
written to it. -/
theorem cellFold_perm {T : Type} (tr : DepthTraits T) (ord : ZOrder tr) (ds ds' : List T)
    (hperm : ds.Perm ds') (hds : ∀ d ∈ ds, tr.valid d = true) (x : T)
    (hx : tr.valid x = false) :
    ds.foldl (updateCell tr) x = ds'.foldl (updateCell tr) x := by
  by_cases hne : ds = []
  · subst hne
    rw [List.Perm.nil_eq hperm]
  · have hds' : ∀ d ∈ ds', tr.valid d = true := fun d hd => hds d (hperm.mem_iff.mpr hd)
    have hne' : ds' ≠ [] := fun h => hne (by subst h; exact List.Perm.eq_nil hperm)
    obtain ⟨a1, a2, a3⟩ := cellFold_of_invalid tr ord ds hds hne x hx
    obtain ⟨b1, b2, b3⟩ := cellFold_of_invalid tr ord ds' hds' hne' x hx
    exact ord.antisymm _ _ a1 b1 (a3 _ (hperm.mem_iff.mpr b2)) (b3 _ (hperm.mem_iff.mp a2))

/-! ## The registered buffer, cell by cell -/

theorem mem_depthsAt {T : Type} (W : List (Nat × T)) (j : Nat) (d : T) :
    d ∈ depthsAt W j ↔ (j, d) ∈ W := by
  unfold depthsAt
  simp only [List.mem_map, List.mem_filter, beq_iff_eq]
  constructor
  · rintro ⟨⟨i, e⟩, ⟨hmem, hi⟩, he⟩
    simp only at hi he
    subst hi he
    exact hmem
  · intro h
    exact ⟨(j, d), ⟨h, rfl⟩, rfl⟩

theorem mem_pixelWrites {T : Type} (tr : DepthTraits T) (node : RegisterNode)
    (depth_msg : Image (List T)) (width height : Nat) (depth_to_rgb : Affine3d)
    (p : Nat × Nat) (w : Nat × T) :
    w ∈ pixelWrites tr node depth_msg width height depth_to_rgb p ↔
      ∃ f, footprint tr node depth_msg width height depth_to_rgb p.1 p.2 = some f ∧
        ∃ c ∈ f.1, w = (cellIndex width c.2 c.1, f.2) := by
  unfold pixelWrites
  cases h : footprint tr node depth_msg width height depth_to_rgb p.1 p.2 with
  | none => simp
  | some f =>
    simp only [footprintWrites, List.mem_map, Option.some.injEq, exists_eq_left']
    constructor
    · rintro ⟨c, hc, rfl⟩
      exact ⟨c, hc, rfl⟩
    · rintro ⟨c, hc, rfl⟩
      exact ⟨c, hc, rfl⟩

theorem mem_allWrites {T : Type} (tr : DepthTraits T) (node : RegisterNode)
    (depth_msg : Image (List T)) (width height : Nat) (depth_to_rgb : Affine3d) (w : Nat × T) :
    w ∈ allWrites tr node depth_msg width height depth_to_rgb ↔
      ∃ p ∈ pixels depth_msg.height depth_msg.width,
        w ∈ pixelWrites tr node depth_msg width height depth_to_rgb p := by
  unfold allWrites
  exact List.mem_flatMap

theorem convert_data_eq {T : Type} (tr : DepthTraits T) (node : RegisterNode)
    (depth_msg registered_msg : Image (List T)) (depth_to_rgb : Affine3d) :
    (convert tr node depth_msg registered_msg depth_to_rgb).data =
      (allWrites tr node depth_msg registered_msg.width registered_msg.height
        depth_to_rgb).foldl (fun r w => zwrite tr r w.1 w.2)
        (initialData tr registered_msg.width registered_msg.height) := by
  rw [convert_data_foldl]
  unfold allWrites
  exact foldl_pixelStep_eq tr node depth_msg _ _ depth_to_rgb _ _

theorem convert_data_length {T : Type} (tr : DepthTraits T) (node : RegisterNode)
    (depth_msg registered_msg : Image (List T)) (depth_to_rgb : Affine3d) :
    (convert tr node depth_msg registered_msg depth_to_rgb).data.length =
      (initialData tr registered_msg.width registered_msg.height).length := by
  rw [convert_data_eq, foldl_zwrite_length]

theorem convert_getElem? {T : Type} (tr : DepthTraits T) (node : RegisterNode)
    (depth_msg registered_msg : Image (List T)) (depth_to_rgb : Affine3d) (j : Nat) :
    (convert tr node depth_msg registered_msg depth_to_rgb).data[j]? =
      ((initialData tr registered_msg.width registered_msg.height)[j]?).map fun x =>
        (depthsAt (allWrites tr node depth_msg registered_msg.width registered_msg.height
          depth_to_rgb) j).foldl (updateCell tr) x := by
  rw [convert_data_eq, foldl_zwrite_getElem?]

/-- The number of cells of the registered buffer when its bytes are fewer than `2^32`. -/
theorem cells_of_size (s width height : Nat) (hs : 0 < s) (hsize : height * width * s < UINT32) :
    ((height * ((width * s) % UINT32)) % UINT32) / s = height * width := by
  rcases Nat.eq_zero_or_pos height with h0 | hpos
  · subst h0
    simp
  · have h1 : width * s ≤ height * width * s := by
      calc width * s = 1 * (width * s) := (Nat.one_mul _).symm
        _ ≤ height * (width * s) := Nat.mul_le_mul_right _ hpos
        _ = height * width * s := (Nat.mul_assoc _ _ _).symm
    rw [Nat.mod_eq_of_lt (lt_of_le_of_lt h1 hsize), ← Nat.mul_assoc, Nat.mod_eq_of_lt hsize,
      Nat.mul_div_cancel _ hs]

theorem cellIndex_injective (width height : Nat) (hsize : width * height ≤ UINT32)
    (c c' : Int × Int) (hc : inGrid width height c) (hc' : inGrid width height c')
    (h : cellIndex width c.2 c.1 = cellIndex width c'.2 c'.1) : c = c' := by
  rw [(cellIndex_of_in_grid width height hsize c hc).1,
    (cellIndex_of_in_grid width height hsize c' hc').1] at h
  obtain ⟨h1, h2, h3, h4⟩ := hc
  obtain ⟨h1', h2', h3', h4'⟩ := hc'
  have hu : c.1.toNat < width := by omega
  have hu' : c'.1.toNat < width := by omega
  have hdiv : (c.2.toNat * width + c.1.toNat) / width = (c'.2.toNat * width + c'.1.toNat) / width :=
    congrArg (· / width) h
  have hwpos : 0 < width := by omega
  rw [Nat.add_comm, Nat.add_mul_div_right _ _ hwpos, Nat.div_eq_of_lt hu, Nat.add_comm (c'.2.toNat * width),
    Nat.add_mul_div_right _ _ hwpos, Nat.div_eq_of_lt hu'] at hdiv
  have hv : c.2.toNat = c'.2.toNat := by omega
  rw [hv] at h
  have hu2 : c.1.toNat = c'.1.toNat := by omega
  exact Prod.ext (by omega) (by omega)

/-! ## C4: the bounds of the writes -/

/-- The buffer index of a cell of the target grid is below the number of cells of the grid. -/
theorem cellIndex_lt (width height : Nat) (c : Int × Int)
    (hc : 0 ≤ c.1 ∧ c.1 < (width : Int) ∧ 0 ≤ c.2 ∧ c.2 < (height : Int)) :
    cellIndex width c.2 c.1 < width * height := by
  obtain ⟨h1, h2, h3, h4⟩ := hc
  have hu : (c.1.toNat : Int) = c.1 := Int.toNat_of_nonneg h1
  have hv : (c.2.toNat : Int) = c.2 := Int.toNat_of_nonneg h3
  have hu' : c.1.toNat < width := by omega
  have hv' : c.2.toNat < height := by omega
  have hlt : c.2.toNat * width + c.1.toNat < width * height := by
    calc c.2.toNat * width + c.1.toNat < c.2.toNat * width + width := by omega
      _ = (c.2.toNat + 1) * width := by ring
      _ ≤ height * width := Nat.mul_le_mul_right width hv'
      _ = width * height := Nat.mul_comm _ _
  have hidx : cellIndex width c.2 c.1 = (c.2.toNat * width + c.1.toNat) % UINT32 := by
    unfold cellIndex
    rw [← hu, ← hv]
    have : ((c.2.toNat : Int) * (width : Int) + (c.1.toNat : Int)) % (UINT32 : Int) =
        (((c.2.toNat * width + c.1.toNat) % UINT32 : Nat) : Int) := by
      push_cast
      rfl
    rw [this]
    exact Int.toNat_natCast _
  rw [hidx]
  exact lt_of_le_of_lt (Nat.mod_le _ _) hlt

/-- No write of `convert` falls outside the registered buffer when the buffer has as many
cells as the target grid. -/
theorem strayWrites_eq_nil {T : Type} (tr : DepthTraits T) (node : RegisterNode)
    (depth_msg registered_msg : Image (List T)) (depth_to_rgb : Affine3d)
    (hlen : (initialData tr registered_msg.width registered_msg.height).length =
      registered_msg.width * registered_msg.height) :
    strayWrites tr node depth_msg registered_msg depth_to_rgb = [] := by
  unfold strayWrites
  rw [List.filter_eq_nil_iff]
  intro w hw
  rw [mem_allWrites] at hw
  obtain ⟨p, _, hw⟩ := hw
  rw [mem_pixelWrites] at hw
  obtain ⟨f, hf, c, hc, rfl⟩ := hw
  have hgrid := footprint_cells_in_grid tr node depth_msg _ _ depth_to_rgb p.1 p.2 f hf c hc
  have hlt := cellIndex_lt _ _ c hgrid
  simp only [decide_eq_true_eq, not_le]
  rw [hlen]
  exact hlt

/-- C4 (amended): for both policies, the body of the pixel loop performs the z-buffer
updates of the cells `(nu, nv)` of the footprint of the pixel and nothing else; every such
cell lies in the target grid, `0 ≤ nu < width` and `0 ≤ nv < height`, and its buffer index is
below `width * height`; a source pixel whose computed target coordinate is negative or not
below the width or height (point-sample), or whose corners fail the corner check
(hole-filling), leaves the registered buffer unchanged; and no write of `convert` falls
outside the buffer that it allocates when the size of the buffer, `height * width` samples,
is below `2^32` bytes. -/
theorem bounds_discarding (node : RegisterNode) (depth_to_rgb : Affine3d) :
    (∀ {T : Type} (tr : DepthTraits T) (depth_msg : Image (List T)) (width height v u : Nat),
      (∀ reg, pixelBody tr node depth_msg width height depth_to_rgb reg v u =
        match footprint tr node depth_msg width height depth_to_rgb v u with
        | none => reg
        | some f => f.1.foldl (fun r c => zwrite tr r (cellIndex width c.2 c.1) f.2) reg) ∧
      (∀ f, footprint tr node depth_msg width height depth_to_rgb v u = some f →
        ∀ c ∈ f.1, (0 ≤ c.1 ∧ c.1 < (width : Int) ∧ 0 ≤ c.2 ∧ c.2 < (height : Int)) ∧
          cellIndex width c.2 c.1 < width * height) ∧
      (node.fill_upsampling_holes_ = false →
        ∀ raw, rawDepth tr depth_msg v u = some raw →
          ((pointTarget node depth_to_rgb v u (tr.toMeters raw)).1.1 < 0 ∨
            (width : Int) ≤ (pointTarget node depth_to_rgb v u (tr.toMeters raw)).1.1 ∨
            (pointTarget node depth_to_rgb v u (tr.toMeters raw)).1.2 < 0 ∨
            (height : Int) ≤ (pointTarget node depth_to_rgb v u (tr.toMeters raw)).1.2) →
          ∀ reg, pixelBody tr node depth_msg width height depth_to_rgb reg v u = reg) ∧
      (node.fill_upsampling_holes_ = true →
        ∀ raw, rawDepth tr depth_msg v u = some raw →
          ((cornerTargets node depth_to_rgb v u (tr.toMeters raw)).1.1.1 < 0 ∨
            (width : Int) ≤ (cornerTargets node depth_to_rgb v u (tr.toMeters raw)).1.2.1 ∨
            (cornerTargets node depth_to_rgb v u (tr.toMeters raw)).1.1.2 < 0 ∨
            (height : Int) ≤ (cornerTargets node depth_to_rgb v u (tr.toMeters raw)).1.2.2) →
          ∀ reg, pixelBody tr node depth_msg width height depth_to_rgb reg v u = reg)) ∧
    (∀ depth_msg registered_msg : Image (List Nat),
      registered_msg.height * registered_msg.width * 2 < UINT32 →
      strayWrites DepthTraits_uint16 node depth_msg registered_msg depth_to_rgb = []) ∧
    (∀ depth_msg registered_msg : Image (List Flt),
      registered_msg.height * registered_msg.width * 4 < UINT32 →
      strayWrites DepthTraits_float node depth_msg registered_msg depth_to_rgb = []) := by
  refine ⟨?_, ?_, ?_⟩
  · intro T tr depth_msg width height v u
    have hw := castInt_le width
    have hh := castInt_le height
    refine ⟨?_, ?_, ?_, ?_⟩
    · intro reg
      rw [pixelBody_eq_pixelStep]
      rfl
    · intro f hf c hc
      have hgrid := footprint_cells_in_grid tr node depth_msg width height depth_to_rgb v u f hf
        c hc
      exact ⟨hgrid, cellIndex_lt width height c hgrid⟩
    · intro hfill raw hraw hout reg
      rw [pixelBody_eq_pixelStep]
      apply pixelStep_of_footprint_none
      cases hvalid : tr.valid raw with
      | false =>
        exact footprint_none_of_invalid tr node depth_msg width height depth_to_rgb v u
          (fun r hr => by rw [hraw] at hr; injection hr with hr; rw [← hr]; exact hvalid)
      | true =>
        show footprint tr node depth_msg width height depth_to_rgb v u = none
        rw [footprint_point tr node depth_msg width height depth_to_rgb v u raw hfill hraw hvalid]
        apply if_pos
        omega
    · intro hfill raw hraw hout reg
      rw [pixelBody_eq_pixelStep]
      apply pixelStep_of_footprint_none
      cases hvalid : tr.valid raw with
      | false =>
        exact footprint_none_of_invalid tr node depth_msg width height depth_to_rgb v u
          (fun r hr => by rw [hraw] at hr; injection hr with hr; rw [← hr]; exact hvalid)
      | true =>
        show footprint tr node depth_msg width height depth_to_rgb v u = none
        rw [footprint_fill tr node depth_msg width height depth_to_rgb v u raw hfill hraw hvalid]
        apply if_pos
        omega
  · intro depth_msg registered_msg hsize
    apply strayWrites_eq_nil
    rw [initialData_uint16, List.length_replicate,
      cells_of_size 2 _ _ (by decide) hsize, Nat.mul_comm]
  · intro depth_msg registered_msg hsize
    apply strayWrites_eq_nil
    rw [initialData_float, List.length_replicate,
      cells_of_size 4 _ _ (by decide) hsize, Nat.mul_comm]

/-- C4 at a pixel that projects right of the grid and at the scenario of the specification:
the pixel `(0, 0)` of the 1x1 image under the rotation about the vertical axis has the target
column 133, and leaves the buffer unchanged; none of the 16 writes of the scenario falls
outside its buffer of 16 cells. -/
theorem bounds_discarding_witness :
    pixelBody DepthTraits_uint16 nodeAxis oneSample 1 1 tilt [0] 0 0 = [0] ∧
      (allWrites DepthTraits_uint16 nodePoint scenarioImage 4 4 Affine3d.identity).length = 16 ∧
      strayWrites DepthTraits_uint16 nodePoint scenarioImage (emptyRegistered 4 4)
        Affine3d.identity = [] :=
  ⟨((bounds_discarding nodeAxis tilt).1 DepthTraits_uint16 oneSample 1 1 0 0).2.2.1 rfl 1000
      (by decide!) (Or.inr (Or.inl (by decide!))) [0],
    by decide!,
    (bounds_discarding nodePoint Affine3d.identity).2.1 scenarioImage (emptyRegistered 4 4)
      (by decide)⟩

/-- C4 as stated fails when the size of the buffer overflows 32 bits: a 1x1 16-bit image
with the sample 1000, registered with the identity transform into a target grid of 65536
columns and 32768 rows.  The row step is 131072 and `height * step = 2^32` is 0 in 32-bit
arithmetic: `convert` allocates an empty buffer.  The pixel projects onto the cell `(0, 0)`,
which passes the bounds check, and the z-buffer update reads and writes
`registered_data[0]`, outside the empty buffer. -/
theorem bounds_counterexample :
    initialData DepthTraits_uint16 65536 32768 = [] ∧
      footprint DepthTraits_uint16 nodeBig oneSample 65536 32768 Affine3d.identity 0 0 =
        some ([(0, 0)], 1000) ∧
      cellIndex 65536 0 0 = 0 ∧
      strayWrites DepthTraits_uint16 nodeBig oneSample (emptyRegistered 65536 32768)
        Affine3d.identity = [(0, 1000)] :=
  ⟨by decide!, by decide!, by decide!, by decide!⟩

/-! ## The point-sample policy -/

@[simp] theorem Dbl.fin_add_fin (a b : ℚ) : Dbl.fin a + Dbl.fin b = Dbl.fin (a + b) := rfl

@[simp] theorem Dbl.fin_sub_fin (a b : ℚ) : Dbl.fin a - Dbl.fin b = Dbl.fin (a - b) := rfl

@[simp] theorem Dbl.fin_mul_fin (a b : ℚ) : Dbl.fin a * Dbl.fin b = Dbl.fin (a * b) := rfl

theorem Dbl.fin_div_fin (a b : ℚ) (hb : b ≠ 0) : Dbl.fin a / Dbl.fin b = Dbl.fin (a / b) := by
  show Dbl.div (Dbl.fin a) (Dbl.fin b) = Dbl.fin (a / b)
  simp [Dbl.div, hb]

theorem truncate_of_nonneg {q : ℚ} (h : 0 ≤ q) : truncate q = ⌊q⌋ := by
  simp [truncate, h]

/-- The scenario of the specification: the 4x4 16-bit image with all samples 1000,
`fx = fy = 100`, `cx = cy = 2`, `Tx = Ty = 0`, registered with the identity transform into
the same camera, is returned as it is. -/
theorem scenario_reproduced :
    (convert DepthTraits_uint16 nodePoint scenarioImage (emptyRegistered 4 4)
      Affine3d.identity).data = scenarioImage.data := by
  decide!

/-- C2 at its failing input: the 4x4 floating-point image of samples 1.0 with the sample 0.0
at the pixel `(1, 1)`, registered with the identity transform into the same camera
(`fx = fy = 100`, `cx = cy = 2`, `Tx = Ty = 0`).  The sample 0.0 is finite, hence valid; its
depth in the target frame is 0, `inv_Z = 1.0 / 0` is not finite, neither are the projected
column and row, their conversion to `int` gives `INT_MIN`, the pixel is discarded, and the
cell `(1, 1)` of the registered buffer stays NaN where the source image has 0.0. -/
theorem identity_failing_input :
    rawDepth DepthTraits_float zeroDepthImage 1 1 = some (Flt.fin 0) ∧
      DepthTraits_float.valid (Flt.fin 0) = true ∧
      (pointTarget nodePoint Affine3d.identity 1 1
        (DepthTraits_float.toMeters (Flt.fin 0))).2.z = Dbl.fin 0 ∧
      (pointTarget nodePoint Affine3d.identity 1 1
        (DepthTraits_float.toMeters (Flt.fin 0))).1 = (INT_MIN, INT_MIN) ∧
      (convert DepthTraits_float nodePoint zeroDepthImage (emptyRegistered 4 4)
        Affine3d.identity).data[1 * 4 + 1]? = some Flt.nan := by
  refine ⟨by decide!, by decide!, by decide!, by decide!, by decide!⟩

/-! ## C5: the order of the source pixels -/

theorem updateCell_fin_ninf (a : ℚ) :
    updateCell DepthTraits_float (Flt.fin a) Flt.ninf = Flt.ninf := rfl

theorem updateCell_fin_nan (a : ℚ) :
    updateCell DepthTraits_float (Flt.fin a) Flt.nan = Flt.fin a := rfl

theorem initialData_float_invalid (width height : Nat) :
    ∀ x ∈ initialData DepthTraits_float width height, DepthTraits_float.valid x = false := by
  intro x hx
  rw [initialData_float] at hx
  rw [List.eq_of_mem_replicate hx]
  rfl

theorem initialData_uint16_invalid (width height : Nat) :
    ∀ x ∈ initialData DepthTraits_uint16 width height, DepthTraits_uint16.valid x = false := by
  intro x hx
  rw [initialData_uint16] at hx
  rw [List.eq_of_mem_replicate hx]
  rfl

@[simp] theorem Dbl.nonfinite_add (x : Dbl) : Dbl.nonfinite + x = Dbl.nonfinite := rfl

@[simp] theorem Dbl.add_nonfinite (x : Dbl) : x + Dbl.nonfinite = Dbl.nonfinite := by
  cases x <;> rfl

@[simp] theorem Dbl.nonfinite_sub (x : Dbl) : Dbl.nonfinite - x = Dbl.nonfinite := rfl

@[simp] theorem Dbl.nonfinite_mul (x : Dbl) : Dbl.nonfinite * x = Dbl.nonfinite := rfl

@[simp] theorem Dbl.mul_nonfinite (x : Dbl) : x * Dbl.nonfinite = Dbl.nonfinite := by
  cases x <;> rfl

theorem Dbl.fin_div_zero (a : ℚ) : Dbl.fin a / Dbl.fin 0 = Dbl.nonfinite := by
  show Dbl.div (Dbl.fin a) (Dbl.fin 0) = Dbl.nonfinite
  simp [Dbl.div]

theorem imageCb_of_lookup_none (env : Services) (fill : Bool) (depth_image_msg : Image Bytes)
    (depth_info_msg rgb_info_msg : CameraInfo)
    (h : env.lookupTransform rgb_info_msg.header.frame_id depth_info_msg.header.frame_id
      (tf2Time depth_info_msg.header.stamp) = none) :
    imageCb env fill depth_image_msg depth_info_msg rgb_info_msg = [] := by
  simp only [imageCb, h]

/-- C7 (frame drop): `imageCb` publishes nothing when the transform lookup fails, nothing
when the encoding of the depth image is neither `16UC1` nor `32FC1`, and exactly one
registered image with its camera info when the lookup succeeds and the encoding is one of
the two. -/
theorem frame_drop (env : Services) (fill : Bool) (depth_image_msg : Image Bytes)
    (depth_info_msg rgb_info_msg : CameraInfo) :
    (env.lookupTransform rgb_info_msg.header.frame_id depth_info_msg.header.frame_id
        (tf2Time depth_info_msg.header.stamp) = none →
      imageCb env fill depth_image_msg depth_info_msg rgb_info_msg = []) ∧
    (depth_image_msg.encoding ≠ TYPE_16UC1 → depth_image_msg.encoding ≠ TYPE_32FC1 →
      imageCb env fill depth_image_msg depth_info_msg rgb_info_msg = []) ∧
    (∀ depth_to_rgb,
      env.lookupTransform rgb_info_msg.header.frame_id depth_info_msg.header.frame_id
        (tf2Time depth_info_msg.header.stamp) = some depth_to_rgb →
      depth_image_msg.encoding = TYPE_16UC1 ∨ depth_image_msg.encoding = TYPE_32FC1 →
      ∃ registered_msg registered_info_msg,
        imageCb env fill depth_image_msg depth_info_msg rgb_info_msg =
          [(registered_msg, registered_info_msg)]) := by
  refine ⟨imageCb_of_lookup_none env fill depth_image_msg depth_info_msg rgb_info_msg, ?_, ?_⟩
  · intro h16 h32
    cases hlookup : env.lookupTransform rgb_info_msg.header.frame_id
        depth_info_msg.header.frame_id (tf2Time depth_info_msg.header.stamp) with
    | none =>
      exact imageCb_of_lookup_none env fill depth_image_msg depth_info_msg rgb_info_msg hlookup
    | some depth_to_rgb => simp only [imageCb, hlookup, if_neg h16, if_neg h32]
  · intro depth_to_rgb hlookup henc
    unfold imageCb
    simp only [hlookup]
    by_cases h16 : depth_image_msg.encoding = TYPE_16UC1
    · simp only [if_pos h16]
      exact ⟨_, _, rfl⟩
    · have h32 : depth_image_msg.encoding = TYPE_32FC1 := henc.resolve_left h16
      simp only [if_neg h16, if_pos h32]
      exact ⟨_, _, rfl⟩

/-- C7 at three frames: a failed lookup, an 8-bit encoding, and a floating-point image. -/
theorem frame_drop_witness :
    imageCb someServices false (someDepthImage TYPE_16UC1) (someInfo "" 7 2 2)
        (someInfo "rgb" 7 2 2) = [] ∧
      imageCb someServices false (someDepthImage "8UC1") (someInfo "depth" 7 2 2)
        (someInfo "rgb" 7 2 2) = [] ∧
      ∃ registered_msg registered_info_msg,
        imageCb someServices false (someDepthImage TYPE_32FC1) (someInfo "depth" 7 2 2)
          (someInfo "rgb" 7 2 2) = [(registered_msg, registered_info_msg)] :=
  ⟨(frame_drop someServices false (someDepthImage TYPE_16UC1) (someInfo "" 7 2 2)
      (someInfo "rgb" 7 2 2)).1 (by decide),
    (frame_drop someServices false (someDepthImage "8UC1") (someInfo "depth" 7 2 2)
      (someInfo "rgb" 7 2 2)).2.1 (by decide) (by decide),
    (frame_drop someServices false (someDepthImage TYPE_32FC1) (someInfo "depth" 7 2 2)
      (someInfo "rgb" 7 2 2)).2.2 Affine3d.identity (by decide) (Or.inr rfl)⟩

theorem dvd_step (s width : Nat) (hs : s ∣ UINT32) : s ∣ (width * s) % UINT32 :=
  (Nat.dvd_mod_iff hs).mpr (Nat.dvd_mul_left s width)

/-- The bytes of the buffer that `convert` allocates, when `height * step` fits 32 bits. -/
theorem allocated_bytes (s width height : Nat) (hs : s ∣ UINT32)
    (hfit : height * ((width * s) % UINT32) < UINT32) :
    s * (((height * ((width * s) % UINT32)) % UINT32) / s) =
      height * ((width * s) % UINT32) := by
  rw [Nat.mod_eq_of_lt hfit]
  exact Nat.mul_div_cancel' (Dvd.dvd.mul_left (dvd_step s width hs) height)

/-- C8 (amended): a registered image that `imageCb` publishes has the encoding and the time
stamp of the depth image and the width and height of the reduced resolution of the target
camera model; its row step is the width times the sample size when that product is below
`2^32`, and its data buffer has height times step bytes when that product is below `2^32`;
the camera info published with it is the camera info of the target camera with the time
stamp replaced by that of the registered image. -/
theorem published_shape (env : Services) (fill : Bool) (depth_image_msg : Image Bytes)
    (depth_info_msg rgb_info_msg : CameraInfo) (pub : Image Samples × CameraInfo)
    (hpub : pub ∈ imageCb env fill depth_image_msg depth_info_msg rgb_info_msg) :
    pub.1.encoding = depth_image_msg.encoding ∧
      pub.1.width = (env.fromCameraInfo rgb_info_msg).reducedWidth ∧
      pub.1.height = (env.fromCameraInfo rgb_info_msg).reducedHeight ∧
      pub.1.header.stamp = depth_image_msg.header.stamp ∧
      (pub.1.width * sampleSize pub.1.encoding < UINT32 →
        pub.1.step = pub.1.width * sampleSize pub.1.encoding) ∧
      (pub.1.height * pub.1.step < UINT32 → pub.1.data.size = pub.1.height * pub.1.step) ∧
      pub.2 = { rgb_info_msg with
        header := { rgb_info_msg.header with stamp := pub.1.header.stamp } } := by
  unfold imageCb at hpub
  cases hlookup : env.lookupTransform rgb_info_msg.header.frame_id
      depth_info_msg.header.frame_id (tf2Time depth_info_msg.header.stamp) with
  | none =>
    simp only [hlookup] at hpub
    exact absurd hpub (List.not_mem_nil _)
  | some depth_to_rgb =>
    simp only [hlookup] at hpub
    by_cases h16 : depth_image_msg.encoding = TYPE_16UC1
    · simp only [if_pos h16, List.mem_singleton] at hpub
      subst hpub
      refine ⟨rfl, rfl, rfl, rfl, ?_, ?_, rfl⟩
      · intro hfit
        simp only [convert, registeredStep, sampleSize, if_pos h16] at hfit ⊢
        exact Nat.mod_eq_of_lt hfit
      · intro hfit
        simp only [Samples.size, convert_data_length, initialData_uint16, List.length_replicate]
        exact allocated_bytes 2 _ _ (by decide) hfit
    · by_cases h32 : depth_image_msg.encoding = TYPE_32FC1
      · simp only [if_neg h16, if_pos h32, List.mem_singleton] at hpub
        subst hpub
        refine ⟨rfl, rfl, rfl, rfl, ?_, ?_, rfl⟩
        · intro hfit
          simp only [convert, registeredStep, sampleSize, if_neg h16] at hfit ⊢
          exact Nat.mod_eq_of_lt hfit
        · intro hfit
          simp only [Samples.size, convert_data_length, initialData_float,
            List.length_replicate]
          exact allocated_bytes 4 _ _ (by decide) hfit
      · simp only [if_neg h16, if_neg h32] at hpub
        exact absurd hpub (List.not_mem_nil _)

/-- C8 at the 2x2 16-bit example image registered into a 3x2 camera. -/
theorem published_shape_witness :
    somePublished.1.encoding = TYPE_16UC1 ∧
      somePublished.1.width = 3 ∧
      somePublished.1.height = 2 ∧
      somePublished.1.header.stamp = someHeader.stamp ∧
      (somePublished.1.width * sampleSize somePublished.1.encoding < UINT32 →
        somePublished.1.step = somePublished.1.width * sampleSize somePublished.1.encoding) ∧
      (somePublished.1.height * somePublished.1.step < UINT32 →
        somePublished.1.data.size = somePublished.1.height * somePublished.1.step) ∧
      somePublished.2 = { someInfo "rgb" 9 3 2 with
        header := { (someInfo "rgb" 9 3 2).header with stamp := somePublished.1.header.stamp } } :=
  published_shape someServices false (someDepthImage TYPE_16UC1) (someInfo "depth" 7 2 2)
    (someInfo "rgb" 9 3 2) somePublished (by decide!)

/-- C8 as stated fails when the sizes overflow 32 bits: a 16-bit depth image registered
into a target camera of reduced resolution 65536x65536.  One image is published, of height
65536 and row step 131072, and its data buffer has 0 bytes: the product
`65536 * 131072 = 2^33` of height and step is taken in 32-bit arithmetic. -/
theorem published_shape_counterexample :
    (imageCb someServices false blankDepthImage (someInfo "depth" 7 1 1)
        (someInfo "rgb" 7 65536 65536)).map
      (fun pub => (pub.1.height, pub.1.step, pub.1.data.size)) = [(65536, 131072, 0)] := by
  decide!

/-! ## C9: rounding of the target pixel -/

/-- Adding 0.5 and truncating rounds half up from -0.5 on. -/
theorem toInt_add_half (x : ℚ) (hx : -1 / 2 ≤ x) (hmax : x + 1 / 2 < 2147483648) :
    toInt (Dbl.fin (x + 1 / 2)) = roundHalfUp x := by
  have hnn : (0 : ℚ) ≤ x + 1 / 2 := by linarith
  have h0 : (0 : ℤ) ≤ ⌊x + 1 / 2⌋ := Int.floor_nonneg.mpr hnn
  have h1 : ⌊x + 1 / 2⌋ < 2147483648 := by
    rw [Int.floor_lt]
    push_cast
    exact hmax
  show (if INT_MIN ≤ truncate (x + 1 / 2) ∧ truncate (x + 1 / 2) ≤ INT_MAX
    then truncate (x + 1 / 2) else INT_MIN) = roundHalfUp x
  rw [truncate_of_nonneg hnn, if_pos]
  · rfl
  · unfold INT_MIN INT_MAX
    omega

/-- Adding 0.5 and truncating gives 0 between -1.5 and -0.5, where rounding gives -1. -/
theorem toInt_add_half_neg (x : ℚ) (h1 : -3 / 2 < x) (h2 : x < -1 / 2) :
    toInt (Dbl.fin (x + 1 / 2)) = 0 ∧ roundHalfUp x = -1 := by
  have hneg : ¬ (0 : ℚ) ≤ x + 1 / 2 := by linarith
  have hceil : ⌈x + 1 / 2⌉ = 0 := by
    rw [Int.ceil_eq_iff]
    push_cast
    constructor <;> linarith
  have hfloor : ⌊x + 1 / 2⌋ = -1 := by
    rw [Int.floor_eq_iff]
    push_cast
    constructor <;> linarith
  refine ⟨?_, hfloor⟩
  show (if INT_MIN ≤ truncate (x + 1 / 2) ∧ truncate (x + 1 / 2) ≤ INT_MAX
    then truncate (x + 1 / 2) else INT_MIN) = 0
  have ht : truncate (x + 1 / 2) = 0 := by
    simp only [truncate, if_neg hneg, hceil]
  rw [ht, if_pos]
  decide

/-- The point of the RGB frame that `convert` computes for a pixel at a finite depth is the
point of the specification, when the focal lengths of the depth camera are not zero. -/
theorem apply_unproject_fin (node : RegisterNode) (t : Affine3d) (v u : Nat) (d : ℚ)
    (hfx : node.depth_model_.fx ≠ 0) (hfy : node.depth_model_.fy ≠ 0) :
    t.apply (unproject node.depth_model_ (u : ℚ) (v : ℚ) (Dbl.fin d)) =
      { x := Dbl.fin (specPoint node t v u d).1
        y := Dbl.fin (specPoint node t v u d).2.1
        z := Dbl.fin (specPoint node t v u d).2.2
        w := Dbl.one } := by
  simp only [unproject, Affine3d.apply, Dbl.one, Dbl.fin_div_fin _ _ hfx,
    Dbl.fin_div_fin _ _ hfy, Dbl.fin_mul_fin, Dbl.fin_add_fin, Dbl.fin_sub_fin, specPoint,
    Vector4d.mk.injEq, Dbl.fin.injEq, and_true]
  refine ⟨?_, ?_, ?_⟩ <;> ring

/-- From -0.5 on, the target pixel that the point-sample policy computes is the projection
of the specification rounded half up. -/
theorem pointTarget_eq_specTarget (node : RegisterNode) (t : Affine3d) (v u : Nat) (d : ℚ)
    (hfx : node.depth_model_.fx ≠ 0) (hfy : node.depth_model_.fy ≠ 0)
    (hz : (specPoint node t v u d).2.2 ≠ 0)
    (hx : -1 / 2 ≤ (specProjection node t v u d).1)
    (hx2 : (specProjection node t v u d).1 + 1 / 2 < 2147483648)
    (hy : -1 / 2 ≤ (specProjection node t v u d).2)
    (hy2 : (specProjection node t v u d).2 + 1 / 2 < 2147483648) :
    (pointTarget node t v u (Dbl.fin d)).1 = specTarget node t v u d := by
  unfold pointTarget
  simp only [apply_unproject_fin node t v u d hfx hfy, projectWith, Dbl.one, Dbl.half,
    Dbl.fin_div_fin _ _ hz, Dbl.fin_mul_fin, Dbl.fin_add_fin]
  have eu : (node.rgb_model_.fx * (specPoint node t v u d).1 + node.rgb_model_.Tx) *
      (1 / (specPoint node t v u d).2.2) + node.rgb_model_.cx + 1 / 2 =
      (specProjection node t v u d).1 + 1 / 2 := by
    simp only [specProjection]
    ring
  have ev : (node.rgb_model_.fy * (specPoint node t v u d).2.1 + node.rgb_model_.Ty) *
      (1 / (specPoint node t v u d).2.2) + node.rgb_model_.cy + 1 / 2 =
      (specProjection node t v u d).2 + 1 / 2 := by
    simp only [specProjection]
    ring
  rw [eu, ev, toInt_add_half _ hx hx2, toInt_add_half _ hy hy2]
  rfl

/-- C9 at its failing input: a 1x1 16-bit image with the sample 1000 (1 m), the axis camera
on both sides (`fx = 100`, `cx = 0`), a translation of 7 mm to the left.  The projection
of the pixel has column `-0.7`: rounding half up gives the column `-1`, left of the grid,
while `convert` computes the column `0` and writes the pixel into the cell `(0, 0)`. -/
theorem rounding_failing_input :
    specTarget nodeAxis leftShift 0 0 1 = (-1, 0) ∧
      (pointTarget nodeAxis leftShift 0 0 (Dbl.fin 1)).1 = (0, 0) ∧
      (convert DepthTraits_uint16 nodeAxis oneSample (emptyRegistered 1 1) leftShift).data =
        [1000] := by
  refine ⟨by decide!, by decide!, by decide!⟩

/-! ## C10: the projection of the two corners -/

/-- C10 (amended): under the hole-filling policy the two corners `(u - 0.5, v - 0.5)` and
`(u + 0.5, v + 0.5)` of a source pixel are unprojected, transformed, and projected into the
target image each with the inverse depth of its own transformed point: the first corner
with `1 / Z'_1`, the second with `1 / Z'_2`. -/
theorem corner_projection (node : RegisterNode) (depth_to_rgb : Affine3d) (v u : Nat)
    (depth : Dbl) :
    (cornerTargets node depth_to_rgb v u depth).2.1 =
        depth_to_rgb.apply (unproject node.depth_model_ ((u : ℚ) - 1 / 2) ((v : ℚ) - 1 / 2) depth) ∧
      (cornerTargets node depth_to_rgb v u depth).2.2 =
        depth_to_rgb.apply (unproject node.depth_model_ ((u : ℚ) + 1 / 2) ((v : ℚ) + 1 / 2) depth) ∧
      (cornerTargets node depth_to_rgb v u depth).1.1 =
        projectWith node.rgb_model_ (cornerTargets node depth_to_rgb v u depth).2.1
          (Dbl.one / (cornerTargets node depth_to_rgb v u depth).2.1.z) ∧
      (cornerTargets node depth_to_rgb v u depth).1.2 =
        projectWith node.rgb_model_ (cornerTargets node depth_to_rgb v u depth).2.2
          (Dbl.one / (cornerTargets node depth_to_rgb v u depth).2.2.z) :=
  ⟨rfl, rfl, rfl, rfl⟩

/-- C10 as stated fails: the pixel `(0, 0)` at 1 m seen by the axis camera, under a rotation
about the vertical axis (cosine 3/5, sine 4/5).  The corners land at depths 0.604 m and
0.596 m; `convert` projects the second corner to the column 135, with its own inverse
depth, where the inverse depth of the first corner would give the column 133. -/
theorem corner_counterexample :
    (cornerTargets nodeAxis tilt 0 0 (Dbl.fin 1)).2.1.z = Dbl.fin (151 / 250) ∧
      (cornerTargets nodeAxis tilt 0 0 (Dbl.fin 1)).2.2.z = Dbl.fin (149 / 250) ∧
      (cornerTargets nodeAxis tilt 0 0 (Dbl.fin 1)).1.2 = (135, 1) ∧
      (cornerTargetsFirstInvZ nodeAxis tilt 0 0 (Dbl.fin 1)).2 = (133, 1) := by
  refine ⟨by decide!, by decide!, by decide!, by decide!⟩

/-! ## C11: the splat of one pixel -/

theorem updateCell_idem {T : Type} (tr : DepthTraits T) (x d : T) :
    updateCell tr (updateCell tr x d) d = updateCell tr x d := by
  unfold updateCell
  by_cases h : (!tr.valid x || tr.gt x d) = true
  · simp only [h, if_true, ite_self]
  · simp only [h, if_false, Bool.false_eq_true]

/-- Writing the same depth several times to a cell is writing it once. -/
theorem cellFold_const {T : Type} (tr : DepthTraits T) (d : T) (ds : List T)
    (hds : ∀ e ∈ ds, e = d) (hne : ds ≠ []) (x : T) :
    ds.foldl (updateCell tr) x = updateCell tr x d := by
  induction ds generalizing x with
  | nil => exact absurd rfl hne
  | cons e ds ih =>
    have he : e = d := hds e (List.mem_cons_self e ds)
    subst he
    rw [List.foldl_cons]
    by_cases hnil : ds = []
    · subst hnil
      rfl
    · rw [ih (fun a ha => hds a (List.mem_cons_of_mem e ha)) hnil, updateCell_idem]

/-- The effect of the loop body on the buffer: the cells of the footprint get one z-buffer
update with the depth of the footprint, and every other index keeps its cell. -/
theorem pixelBody_getElem? {T : Type} (tr : DepthTraits T) (node : RegisterNode)
    (depth_msg : Image (List T)) (width height : Nat) (depth_to_rgb : Affine3d) (v u : Nat)
    (f : List (Int × Int) × T)
    (hf : footprint tr node depth_msg width height depth_to_rgb v u = some f) (reg : List T) :
    (∀ c ∈ f.1,
      (pixelBody tr node depth_msg width height depth_to_rgb reg v u)[cellIndex width c.2 c.1]? =
        (reg[cellIndex width c.2 c.1]?).map fun x => updateCell tr x f.2) ∧
    (∀ j, (∀ c ∈ f.1, cellIndex width c.2 c.1 ≠ j) →
      (pixelBody tr node depth_msg width height depth_to_rgb reg v u)[j]? = reg[j]?) := by
  have hmem : ∀ j e, e ∈ depthsAt (pixelWrites tr node depth_msg width height depth_to_rgb
      (v, u)) j ↔ e = f.2 ∧ ∃ c ∈ f.1, cellIndex width c.2 c.1 = j := by
    intro j e
    rw [mem_depthsAt, mem_pixelWrites]
    constructor
    · rintro ⟨f', hf', c, hc, heq⟩
      rw [hf] at hf'
      injection hf' with hf'
      subst hf'
      simp only [Prod.mk.injEq] at heq
      exact ⟨heq.2, c, hc, heq.1.symm⟩
    · rintro ⟨rfl, c, hc, rfl⟩
      exact ⟨f, hf, c, hc, rfl⟩
  constructor
  · intro c hc
    rw [pixelBody_eq_pixelStep, pixelStep_eq_foldl, foldl_zwrite_getElem?]
    cases hreg : reg[cellIndex width c.2 c.1]? with
    | none => rfl
    | some x =>
      simp only [Option.map_some', Option.some.injEq]
      apply cellFold_const tr f.2 _ (fun e he => ((hmem _ e).mp he).1)
      exact List.ne_nil_of_mem ((hmem _ f.2).mpr ⟨rfl, c, hc, rfl⟩)
  · intro j hj
    rw [pixelBody_eq_pixelStep, pixelStep_eq_foldl, foldl_zwrite_getElem?]
    have hnil : depthsAt (pixelWrites tr node depth_msg width height depth_to_rgb (v, u)) j =
        [] := by
      apply List.eq_nil_iff_forall_not_mem.mpr
      intro e he
      obtain ⟨_, c, hc, hcj⟩ := (hmem j e).mp he
      exact hj c hc hcj
    rw [hnil]
    cases reg[j]? <;> rfl

theorem mem_rectangle (u1 u2 v1 v2 : Int) (c : Int × Int) :
    (c ∈ (intRange v1 v2).flatMap fun nv => (intRange u1 u2).map fun nu => (nu, nv)) ↔
      u1 ≤ c.1 ∧ c.1 ≤ u2 ∧ v1 ≤ c.2 ∧ c.2 ≤ v2 := by
  simp only [List.mem_flatMap, List.mem_map, mem_intRange]
  constructor
  · rintro ⟨nv, ⟨h1, h2⟩, nu, ⟨h3, h4⟩, rfl⟩
    exact ⟨h3, h4, h1, h2⟩
  · rintro ⟨h3, h4, h1, h2⟩
    exact ⟨c.2, ⟨h1, h2⟩, c.1, ⟨h3, h4⟩, rfl⟩

/-- C11 (amended): under the hole-filling policy, for a valid source pixel whose projected
corners `(u1, v1)` and `(u2, v2)` pass the bounds check, with `d` the stored average of the
depths of the two corners, the loop body applies the nearest-wins update with `d` (the cell
becomes `d` if it was invalid or greater than `d`, and is otherwise unchanged) to the buffer
element that the code addresses for each cell of the rectangle `[u1, u2] x [v1, v2]`, and
leaves every other buffer element unchanged; when the target grid has at most `2^32` cells,
these are the cells of the rectangle and the cells outside it: the cell `(nu, nv)` of the
grid gets the update if it lies in the rectangle and is unchanged otherwise. -/
theorem splat_step {T : Type} (tr : DepthTraits T) (node : RegisterNode)
    (hfill : node.fill_upsampling_holes_ = true) (depth_msg : Image (List T))
    (width height : Nat) (depth_to_rgb : Affine3d) (v u : Nat) (raw : T)
    (hraw : rawDepth tr depth_msg v u = some raw) (hvalid : tr.valid raw = true)
    (u1 v1 u2 v2 : Int) (xyz1 xyz2 : Vector4d)
    (hcorners : cornerTargets node depth_to_rgb v u (tr.toMeters raw) =
      (((u1, v1), (u2, v2)), (xyz1, xyz2)))
    (hcheck : 0 ≤ u1 ∧ u2 < castInt width ∧ 0 ≤ v1 ∧ v2 < castInt height) (reg : List T) :
    (∀ nu nv, u1 ≤ nu → nu ≤ u2 → v1 ≤ nv → nv ≤ v2 →
      (pixelBody tr node depth_msg width height depth_to_rgb reg v u)[cellIndex width nv nu]? =
        (reg[cellIndex width nv nu]?).map fun x =>
          updateCell tr x (tr.fromMeters (Dbl.half * (xyz1.z + xyz2.z)))) ∧
    (∀ j, (∀ nu nv, u1 ≤ nu → nu ≤ u2 → v1 ≤ nv → nv ≤ v2 → cellIndex width nv nu ≠ j) →
      (pixelBody tr node depth_msg width height depth_to_rgb reg v u)[j]? = reg[j]?) ∧
    (width * height ≤ UINT32 → ∀ c, inGrid width height c →
      (pixelBody tr node depth_msg width height depth_to_rgb reg v u)[
          c.2.toNat * width + c.1.toNat]? =
        if u1 ≤ c.1 ∧ c.1 ≤ u2 ∧ v1 ≤ c.2 ∧ c.2 ≤ v2 then
          (reg[c.2.toNat * width + c.1.toNat]?).map fun x =>
            updateCell tr x (tr.fromMeters (Dbl.half * (xyz1.z + xyz2.z)))
        else reg[c.2.toNat * width + c.1.toNat]?) := by
  have hf := footprint_fill tr node depth_msg width height depth_to_rgb v u raw hfill hraw hvalid
  rw [hcorners] at hf
  simp only at hf
  rw [if_neg (by omega)] at hf
  obtain ⟨hin, hout⟩ := pixelBody_getElem? tr node depth_msg width height depth_to_rgb v u _ hf reg
  simp only [mem_rectangle] at hin hout
  refine ⟨?_, ?_, ?_⟩
  · intro nu nv h1 h2 h3 h4
    exact hin (nu, nv) ⟨h1, h2, h3, h4⟩
  · intro j hj
    exact hout j fun c hc => hj c.1 c.2 hc.1 hc.2.1 hc.2.2.1 hc.2.2.2
  · intro hsize c hc
    rw [← (cellIndex_of_in_grid width height hsize c hc).1]
    split_ifs with hrect
    · exact hin c hrect
    · apply hout
      intro c' hc' heq
      have hgrid : inGrid width height c' :=
        footprint_cells_in_grid tr node depth_msg width height depth_to_rgb v u _ hf c'
          ((mem_rectangle u1 u2 v1 v2 c').mpr hc')
      have hcc : c' = c := cellIndex_injective width height hsize c' c hgrid hc heq
      rw [hcc] at hc'
      exact hrect hc'

/-- C11 at the scenario of the specification: the pixel `(1, 1)` of the 4x4 16-bit image has
the corners `(1, 1)` and `(2, 2)`, and processing it on the initial buffer updates the cell
`(2, 1)` with the stored average depth. -/
theorem splat_step_witness :
    (pixelBody DepthTraits_uint16 nodeFill scenarioImage 4 4 Affine3d.identity
        (initialData DepthTraits_uint16 4 4) 1 1)[cellIndex 4 1 2]? =
      ((initialData DepthTraits_uint16 4 4)[cellIndex 4 1 2]?).map fun x =>
        updateCell DepthTraits_uint16 x
          (DepthTraits_uint16.fromMeters (Dbl.half * (Dbl.fin 1 + Dbl.fin 1))) :=
  (splat_step DepthTraits_uint16 nodeFill rfl scenarioImage 4 4 Affine3d.identity 1 1 1000
    (by decide) (by decide) 1 1 2 2
    { x := Dbl.fin (-3 / 200), y := Dbl.fin (-3 / 200), z := Dbl.fin 1, w := Dbl.fin 1 }
    { x := Dbl.fin (-1 / 200), y := Dbl.fin (-1 / 200), z := Dbl.fin 1, w := Dbl.fin 1 }
    (by decide!) (by decide) (initialData DepthTraits_uint16 4 4)).1 2 1
    (by decide) (by decide) (by decide) (by decide)

/-- C11 as stated fails when the buffer index wraps: a target grid of 641 columns and
6700417 rows has `2^32 + 1` cells, and `convert` allocates a buffer of one cell for it.
The pixel `(0, 0)` of the 1x1 image has both corners on the cell `(640, 6700416)`, the
corner check passes, and the index `6700416 * 641 + 640 = 2^32` is 0 in 32-bit arithmetic:
the update lands on the cell `(0, 0)`, outside the rectangle, which goes from 0 to 1000. -/
theorem splat_step_counterexample :
    initialData DepthTraits_uint16 641 6700417 = [0] ∧
      (cornerTargets (withPolicy nodeHuge true) Affine3d.identity 0 0
        (DepthTraits_uint16.toMeters 1000)).1 = ((640, 6700416), (640, 6700416)) ∧
      footprint DepthTraits_uint16 (withPolicy nodeHuge true) oneSample 641 6700417
        Affine3d.identity 0 0 = some ([(640, 6700416)], 1000) ∧
      cellIndex 641 6700416 640 = 0 ∧
      pixelBody DepthTraits_uint16 (withPolicy nodeHuge true) oneSample 641 6700417
        Affine3d.identity [0] 0 0 = [1000] :=
  ⟨by decide!, by decide!, by decide!, by decide!, by decide!⟩

/-! ## C12: valid cells stay valid -/

theorem countP_set_le {α : Type} (q : α → Bool) (l : List α) (i : Nat) (a : α) :
    (l.set i a).countP q ≤ l.countP q + 1 := by
  induction l generalizing i with
  | nil => simp
  | cons b l ih =>
    cases i with
    | zero =>
      simp only [List.set_cons_zero, List.countP_cons]
      split_ifs <;> omega
    | succ i =>
      simp only [List.set_cons_succ, List.countP_cons]
      have := ih i
      omega

theorem countP_zwrite_le {T : Type} (tr : DepthTraits T) (reg : List T) (i : Nat) (d : T) :
    (zwrite tr reg i d).countP tr.valid ≤ reg.countP tr.valid + 1 := by
  unfold zwrite
  cases reg[i]? with
  | none => exact Nat.le_succ _
  | some x => exact countP_set_le tr.valid reg i _

/-- A sequence of z-buffer updates makes at most as many cells valid as it has updates. -/
theorem countP_foldl_zwrite_le {T : Type} (tr : DepthTraits T) (W : List (Nat × T))
    (reg : List T) :
    (W.foldl (fun r w => zwrite tr r w.1 w.2) reg).countP tr.valid ≤
      reg.countP tr.valid + W.length := by
  induction W generalizing reg with
  | nil => exact Nat.le_refl _
  | cons w W ih =>
    rw [List.foldl_cons, List.length_cons]
    have h1 := ih (zwrite tr reg w.1 w.2)
    have h2 := countP_zwrite_le tr reg w.1 w.2
    omega

theorem length_flatMap_le_countP {α β : Type} (f : α → List β) (q : α → Bool) (l : List α)
    (h : ∀ a, (f a).length ≤ if q a = true then 1 else 0) :
    (l.flatMap f).length ≤ l.countP q := by
  induction l with
  | nil => simp
  | cons a l ih =>
    rw [List.flatMap_cons, List.length_append, List.countP_cons]
    have := h a
    split_ifs at this ⊢ <;> omega

/-- Under the point-sample policy a source pixel writes at most once, and only when its
sample is valid. -/
theorem length_pixelWrites_point {T : Type} (tr : DepthTraits T) (node : RegisterNode)
    (hfill : node.fill_upsampling_holes_ = false) (depth_msg : Image (List T))
    (width height : Nat) (depth_to_rgb : Affine3d) (p : Nat × Nat) :
    (pixelWrites tr node depth_msg width height depth_to_rgb p).length ≤
      if validSource tr depth_msg p = true then 1 else 0 := by
  unfold pixelWrites validSource
  cases hraw : rawDepth tr depth_msg p.1 p.2 with
  | none =>
    rw [footprint_none_of_invalid tr node depth_msg width height depth_to_rgb p.1 p.2
      (fun r hr => by rw [hraw] at hr; exact Option.noConfusion hr)]
    simp
  | some raw =>
    cases hvalid : tr.valid raw with
    | false =>
      rw [footprint_none_of_invalid tr node depth_msg width height depth_to_rgb p.1 p.2
        (fun r hr => by rw [hraw] at hr; injection hr with hr; rw [← hr]; exact hvalid)]
      simp
    | true =>
      rw [footprint_point tr node depth_msg width height depth_to_rgb p.1 p.2 raw hfill hraw
        hvalid]
      split_ifs <;> simp [footprintWrites]

/-- The provenance of the depths of the registered buffer under the point-sample policy,
for a sample type whose initial buffer is invalid. -/
theorem provenance_of_init {T : Type} (tr : DepthTraits T) (node : RegisterNode)
    (hfill : node.fill_upsampling_holes_ = false) (depth_msg registered_msg : Image (List T))
    (depth_to_rgb : Affine3d)
    (hinit : ∀ x ∈ initialData tr registered_msg.width registered_msg.height,
      tr.valid x = false) :
    Provenance tr node depth_msg registered_msg depth_to_rgb := by
  have hindex : ∀ j x,
      (convert tr node depth_msg registered_msg depth_to_rgb).data[j]? = some x →
      tr.valid x = true →
      ∃ p ∈ pixels depth_msg.height depth_msg.width, ∃ c z,
        projectsTo tr node depth_msg depth_to_rgb p c z ∧
        inGrid registered_msg.width registered_msg.height c ∧
        cellIndex registered_msg.width c.2 c.1 = j ∧ x = tr.fromMeters z := by
    intro j x hx hxv
    rw [convert_getElem?] at hx
    cases hj : (initialData tr registered_msg.width registered_msg.height)[j]? with
    | none =>
      rw [hj] at hx
      exact Option.noConfusion hx
    | some x0 =>
      rw [hj] at hx
      simp only [Option.map_some', Option.some.injEq] at hx
      have hx0 : tr.valid x0 = false := hinit x0 (List.mem_iff_getElem?.mpr ⟨j, hj⟩)
      rcases cellFold_mem tr (depthsAt (allWrites tr node depth_msg registered_msg.width
        registered_msg.height depth_to_rgb) j) x0 with h | h
      · rw [hx] at h
        rw [h, hx0] at hxv
        exact Bool.noConfusion hxv
      · rw [hx, mem_depthsAt, mem_allWrites] at h
        obtain ⟨p, hp, hw⟩ := h
        rw [mem_pixelWrites] at hw
        obtain ⟨f, hf, c, hc, heq⟩ := hw
        have hgrid := footprint_cells_in_grid tr node depth_msg _ _ depth_to_rgb p.1 p.2 f hf c hc
        obtain ⟨raw, hraw, hvalid⟩ :=
          footprint_valid_raw tr node depth_msg _ _ depth_to_rgb p.1 p.2 f hf
        rw [footprint_point tr node depth_msg _ _ depth_to_rgb p.1 p.2 raw hfill hraw hvalid] at hf
        split_ifs at hf with hcheck
        injection hf with hf
        subst hf
        simp only [List.mem_singleton] at hc
        simp only [Prod.mk.injEq] at heq
        exact ⟨p, hp, c, _, ⟨raw, hraw, hvalid, hc.symm, rfl⟩, hgrid, heq.1.symm, heq.2⟩
  refine ⟨hindex, ?_, ?_⟩
  · intro hsize c hc x hx hxv
    rw [← (cellIndex_of_in_grid _ _ hsize c hc).1] at hx
    obtain ⟨p, hp, c', z, hproj, hgrid, hidx, hval⟩ := hindex _ x hx hxv
    have hcc : c' = c := cellIndex_injective _ _ hsize c' c hgrid hc hidx
    rw [hcc] at hproj
    exact ⟨p, hp, z, hproj, hval⟩
  · rw [convert_data_eq]
    have h1 := countP_foldl_zwrite_le tr (allWrites tr node depth_msg registered_msg.width
      registered_msg.height depth_to_rgb)
      (initialData tr registered_msg.width registered_msg.height)
    have h0 : (initialData tr registered_msg.width registered_msg.height).countP tr.valid = 0 := by
      rw [List.countP_eq_zero]
      intro x hx
      rw [hinit x hx]
      exact Bool.false_ne_true
    have h2 : (allWrites tr node depth_msg registered_msg.width registered_msg.height
        depth_to_rgb).length ≤
        (pixels depth_msg.height depth_msg.width).countP (validSource tr depth_msg) :=
      length_flatMap_le_countP _ _ _
        (length_pixelWrites_point tr node hfill depth_msg _ _ depth_to_rgb)
    omega

/-- C13 (amended): under the point-sample policy, for both encodings and every input, every
valid element of the registered buffer returned by `convert` holds `fromMeters z` of a valid
source pixel whose target pixel lies in the grid and is addressed at that element; when the
target grid has at most `2^32` cells, every valid cell `c` of the grid holds `fromMeters z`
of a valid source pixel whose target pixel is exactly `c`; and in every case the number of
valid output cells is at most the number of valid source pixels. -/
theorem output_provenance (node : RegisterNode) (hfill : node.fill_upsampling_holes_ = false)
    (depth_to_rgb : Affine3d) :
    (∀ depth_msg registered_msg : Image (List Nat),
      Provenance DepthTraits_uint16 node depth_msg registered_msg depth_to_rgb) ∧
    (∀ depth_msg registered_msg : Image (List Flt),
      Provenance DepthTraits_float node depth_msg registered_msg depth_to_rgb) :=
  ⟨fun depth_msg registered_msg =>
      provenance_of_init DepthTraits_uint16 node hfill depth_msg registered_msg depth_to_rgb
        (initialData_uint16_invalid _ _),
    fun depth_msg registered_msg =>
      provenance_of_init DepthTraits_float node hfill depth_msg registered_msg depth_to_rgb
        (initialData_float_invalid _ _)⟩

/-- C13 at the scenario of the specification: the 4x4 16-bit image with all samples 1000
registered with the identity transform into the same camera. -/
theorem output_provenance_witness :
    Provenance DepthTraits_uint16 nodePoint scenarioImage (emptyRegistered 4 4)
      Affine3d.identity :=
  (output_provenance nodePoint rfl Affine3d.identity).1 scenarioImage (emptyRegistered 4 4)

/-- C13 as stated fails when the buffer index wraps: a target grid of 641 columns and
6700417 rows has `2^32 + 1` cells, and `convert` allocates a buffer of one cell for it.
The only source pixel has the target pixel `(640, 6700416)`, whose index
`6700416 * 641 + 640 = 2^32` is 0 in 32-bit arithmetic: the cell `(0, 0)` of the returned
buffer is valid and holds 1000, and no source pixel projects onto `(0, 0)`. -/
theorem output_provenance_counterexample :
    (convert DepthTraits_uint16 nodeHuge oneSample (emptyRegistered 641 6700417)
        Affine3d.identity).data = [1000] ∧
      DepthTraits_uint16.valid 1000 = true ∧
      (pointTarget nodeHuge Affine3d.identity 0 0 (DepthTraits_uint16.toMeters 1000)).1 =
        (640, 6700416) ∧
      ∀ p ∈ pixels oneSample.height oneSample.width, ∀ z,
        ¬ projectsTo DepthTraits_uint16 nodeHuge oneSample Affine3d.identity p (0, 0) z := by
  refine ⟨by decide!, by decide!, by decide!, ?_⟩
  rintro p hp z ⟨raw, hraw, _, htarget, _⟩
  have hp0 : p = (0, 0) := by
    have hall : ∀ q ∈ pixels oneSample.height oneSample.width, q = (0, 0) := by decide
    exact hall p hp
  subst hp0
  have hr : raw = 1000 := by
    have hmem : raw ∈ oneSample.data := List.mem_iff_getElem?.mpr ⟨_, hraw⟩
    exact List.mem_singleton.mp hmem
  subst hr
  have ht : (pointTarget nodeHuge Affine3d.identity 0 0 (DepthTraits_uint16.toMeters 1000)).1 =
      (640, 6700416) := by decide!
  rw [ht] at htarget
  exact absurd htarget (by decide)

end depth_image_proc
